import Mathlib

/- Verification development for scripts/load_merge.py.

   Shallow embedding: pandas DataFrames become lists of rows (association
   lists from column name to cell value) together with a typed column
   header; the body of main() becomes a pure function returning the written
   outputs, the log messages, and the first raised error if any.
   Floats are modelled as rationals; the comparisons the script performs on
   them (bounding-box checks, membership in the allowed speed set, count
   comparisons) are exact in this range. -/

/-- Cell value of a table: pandas missing marker (NA/NaN), integers,
strings, or floats (modelled as rationals). -/
inductive Value where
  | na
  | int (n : Int)
  | str (s : String)
  | float (q : Rat)
deriving DecidableEq, Repr

/-- Column dtype, reduced to the pandas dtype classes the script inspects
(pd.api.types.is_integer_dtype and everything else). -/
inductive DType where
  | int
  | float
  | str
  | obj
deriving DecidableEq, Repr

/-- Rows are association lists from column name to cell value. -/
abbrev Row := List (String × Value)

/-- DataFrame: a typed column header and the data rows. -/
structure DF where
  cols : List (String × DType)
  rows : List Row
deriving DecidableEq, Repr

/-- Column names of a frame, in order. -/
def colNames (df : DF) : List String :=
  df.cols.map Prod.fst

/-- First cell of a row under the given column name, if the row has one. -/
def lookupCol (r : Row) (c : String) : Option Value :=
  (r.find? (fun cv => decide (cv.1 = c))).map Prod.snd

/-- Cell access as pandas row indexing; in a well-formed frame every row
has an entry for every declared column, so the NA default is never used
there. -/
def getCell (r : Row) (c : String) : Value :=
  (lookupCol r c).getD Value.na

/-- dtype of a column, DType.obj when the column is not declared. -/
def dtypeOf (df : DF) (c : String) : DType :=
  ((df.cols.find? (fun cd => decide (cd.1 = c))).map Prod.snd).getD DType.obj

/- Configuration constants of scripts/load_merge.py. -/

def COLLISION_KEY : String := "collision_index"

def VEH_KEYS : List String := ["collision_index", "vehicle_reference"]

def CAS_KEYS : List String :=
  ["collision_index", "vehicle_reference", "casualty_reference"]

/-- Key columns coerced to strings after load (lines 154-158 of the script). -/
def KEY_NAMES : List String :=
  ["collision_index", "vehicle_reference", "casualty_reference"]

def SENTINELS : List Int := [-1, 97, 98, 99, 997, 998, 999]

/-- Rationals are written with mkRat throughout so terms evaluate inside
the kernel. -/
def ALLOWED_SPEEDS : List Rat :=
  [mkRat 5 1, mkRat 10 1, mkRat 15 1, mkRat 20 1, mkRat 30 1,
   mkRat 40 1, mkRat 50 1, mkRat 60 1, mkRat 70 1, mkRat 80 1]

def UK_LAT_LO : Rat := mkRat 498 10
def UK_LAT_HI : Rat := mkRat 609 10
def UK_LON_LO : Rat := mkRat (-87) 10
def UK_LON_HI : Rat := mkRat 18 10

def COLLISION_CONTEXT : List String :=
  ["collision_index", "collision_year", "collision_ref_no",
   "latitude", "longitude", "police_force", "collision_severity",
   "number_of_vehicles", "number_of_casualties", "speed_limit",
   "light_conditions", "weather_conditions", "urban_or_rural_area"]

/- Numeric reading of cells, as pandas to_numeric(errors="coerce"). -/

/-- Reads a nonempty all-digit character list as a natural number. -/
def digitsToNat : List Char → Option Nat
  | [] => none
  | cs =>
    if cs.all Char.isDigit then
      some (cs.foldl (fun a c => a * 10 + (c.toNat - 48)) 0)
    else none

/-- Numeric reading of a string, as pandas to_numeric with errors="coerce"
does for plain integer and decimal literals (the forms occurring in these
tables); anything else reads as missing. -/
def parseNumStr (s : String) : Option Rat :=
  let body := fun (cs : List Char) =>
    match cs.splitOn '.' with
    | [w] => (digitsToNat w).map (fun n => mkRat n 1)
    | [w, f] =>
      match digitsToNat w, digitsToNat f with
      | some a, some b => some (mkRat (a * 10 ^ f.length + b) (10 ^ f.length))
      | _, _ => none
    | _ => none
  match s.toList with
  | '-' :: rest => (body rest).map (fun q => -q)
  | cs => body cs

/-- Numeric value of a cell, if it has one. -/
def toNumQ : Value → Option Rat
  | Value.na => none
  | Value.int n => some (mkRat n 1)
  | Value.float q => some q
  | Value.str s => parseNumStr s

/- coerce_sentinels_to_na (script lines 104-109). -/

/-- Cell transform of coerce_sentinels_to_na: in an integer-dtype column,
a sentinel integer becomes NA; every other cell is untouched. -/
def sentinelCell (dt : DType) (v : Value) : Value :=
  if dt = DType.int then
    match v with
    | Value.int n => if n ∈ SENTINELS then Value.na else Value.int n
    | w => w
  else v

/-- coerce_sentinels_to_na: replace DfT sentinel codes with NA in every
integer-dtype column (script lines 104-109). -/
def coerce_sentinels_to_na (df : DF) : DF :=
  { df with
    rows := df.rows.map (fun r =>
      r.map (fun cv => (cv.1, sentinelCell (dtypeOf df cv.1) cv.2))) }

/- Key coercion to strings (script lines 154-158). -/

/-- String rendering of a cell as pandas astype(str); missing values become
the non-missing text "nan". -/
def valueToStr : Value → String
  | Value.na => "nan"
  | Value.int n => toString n
  | Value.str s => s
  | Value.float q => toString q

/-- astype(str) applied to each of the three key columns that the frame has
(script lines 154-158). -/
def coerceKeys (df : DF) : DF :=
  { cols := df.cols.map (fun cd =>
      if cd.1 ∈ KEY_NAMES then (cd.1, DType.str) else cd),
    rows := df.rows.map (fun r =>
      r.map (fun cv =>
        if cv.1 ∈ KEY_NAMES then (cv.1, Value.str (valueToStr cv.2)) else cv)) }

/- drop_duplicates on key columns (script lines 160-169). -/

/-- Tuple of key-cell values of a row. -/
def keyTuple (keys : List String) (r : Row) : List Value :=
  keys.map (fun k => getCell r k)

/-- Scan of pandas duplicated(keep="first"): a row is kept exactly when its
key tuple has not been seen on an earlier row. -/
def dedupAux (keys : List String) : List Row → List (List Value) → List Row
  | [], _ => []
  | r :: rs, seen =>
    if keyTuple keys r ∈ seen then dedupAux keys rs seen
    else r :: dedupAux keys rs (keyTuple keys r :: seen)

/-- drop_duplicates(subset=keys, keep="first"). -/
def dropDuplicates (keys : List String) (rows : List Row) : List Row :=
  dedupAux keys rows []

/-- Guarded dedup block of main (script lines 160-169): runs only when all
key columns are present, returning the frame and the removed count it logs
(none when the block is skipped). -/
def dedupStage (keys : List String) (df : DF) : DF × Option Nat :=
  if keys.all (fun k => decide (k ∈ colNames df)) then
    let rows2 := dropDuplicates keys df.rows
    ({ df with rows := rows2 }, some (df.rows.length - rows2.length))
  else (df, none)

/- within_uk_mask and the geo filter (script lines 111-116 and 171-177). -/

/-- Series.between on one cell: false on a missing cell, as pandas. -/
def betweenV (v : Value) (lo hi : Rat) : Bool :=
  match toNumQ v with
  | some q => decide (lo ≤ q ∧ q ≤ hi)
  | none => false

/-- Cell is the missing marker. -/
def isNa (v : Value) : Bool := decide (v = Value.na)

/-- within_uk_mask on one row's coordinates (script lines 111-116):
True = keep; rows with a missing coordinate are kept. -/
def within_uk_mask (lat lon : Value) : Bool :=
  !((!isNa lat) && (!isNa lon) &&
    !(betweenV lat UK_LAT_LO UK_LAT_HI && betweenV lon UK_LON_LO UK_LON_HI))

/-- Log messages emitted by main, one constructor per logging call of the
script that reports pipeline state (lines 164, 169, 176, 191, 201, 211,
220, 225, 227); the save messages carry the row counts they print. -/
inductive LogMsg where
  | vehiclesDupDropped (n : Nat)
  | casualtiesDupDropped (n : Nat)
  | collisionsGeoDropped (n : Nat)
  | savedCollisions (n : Nat)
  | savedVehicles (n : Nat)
  | savedCasualties (n : Nat)
  | vehicleParityMismatches (n : Nat)
  | casualtyParityMismatches (n : Nat)
  | loadMergeComplete
deriving DecidableEq, Repr

/-- Guarded geo-filter block of main (script lines 171-177): keep rows by
within_uk_mask and log the dropped count, but only when it is nonzero. -/
def geoFilterCollisions (acc : DF) : DF × List LogMsg :=
  if "latitude" ∈ colNames acc ∧ "longitude" ∈ colNames acc then
    let keep := fun r => within_uk_mask (getCell r "latitude") (getCell r "longitude")
    let dropped := (acc.rows.filter (fun r => !keep r)).length
    ({ acc with rows := acc.rows.filter keep },
     if dropped ≠ 0 then [LogMsg.collisionsGeoDropped dropped] else [])
  else (acc, [])

/- speed_limit domain normalization (script lines 179-182). -/

/-- Cell transform of the speed_limit normalization: a cell whose numeric
reading is not an allowed speed (including non-numeric and missing cells)
becomes NA; allowed cells keep their original value. -/
def speedCell (v : Value) : Value :=
  match toNumQ v with
  | some q => if q ∈ ALLOWED_SPEEDS then v else Value.na
  | none => Value.na

/-- Guarded speed_limit block of main (script lines 179-182). -/
def normalizeSpeed (acc : DF) : DF :=
  if "speed_limit" ∈ colNames acc then
    { acc with
      rows := acc.rows.map (fun r =>
        r.map (fun cv =>
          if cv.1 = "speed_limit" then (cv.1, speedCell cv.2) else cv)) }
  else acc

/- Column projection (script lines 185-186 and 206). -/

/-- Column projection df[names] for names known to be present. -/
def selectCols (df : DF) (names : List String) : DF :=
  { cols := names.map (fun c => (c, dtypeOf df c)),
    rows := df.rows.map (fun r => names.map (fun c => (c, getCell r c))) }

/-- Errors the script can raise in the modelled region: pandas KeyError
(missing column), pandas MergeError from validate="many_to_one", and a
failing assert statement. -/
inductive PError where
  | keyError
  | cardinalityViolation
  | assertionError
deriving DecidableEq, Repr

/-- Column projection df[names], raising KeyError when a name is absent
(script line 206). -/
def selectColsE (df : DF) (names : List String) : Except PError DF :=
  if names.all (fun c => decide (c ∈ colNames df)) then
    Except.ok (selectCols df names)
  else Except.error PError.keyError

/-- Collision-context projection acc[ctx_cols] (script lines 185-186): the
COLLISION_CONTEXT columns that the collision frame actually has. -/
def buildContext (acc : DF) : DF :=
  selectCols acc (COLLISION_CONTEXT.filter (fun c => decide (c ∈ colNames acc)))

/- merge(..., how="left", validate="many_to_one") (script lines 195, 204, 207). -/

/-- Right-hand columns a merge appends: every right column that is not a
join key. -/
def rightNonKeyCols (right : DF) (keys : List String) : List (String × DType) :=
  right.cols.filter (fun cd => decide (cd.1 ∉ keys))

/-- Left-join extension of one left row: append the matching right row's
non-key cells, or NA cells when no right row matches. -/
def extendRow (right : DF) (keys : List String) (lr : Row) : Row :=
  match right.rows.find? (fun rr => decide (keyTuple keys rr = keyTuple keys lr)) with
  | some rr => lr ++ (rightNonKeyCols right keys).map (fun cd => (cd.1, getCell rr cd.1))
  | none => lr ++ (rightNonKeyCols right keys).map (fun cd => (cd.1, Value.na))

/-- merge(right, on=keys, how="left", validate="many_to_one"): KeyError when
a join key column is absent from either side, MergeError (cardinality
violation) when the right side's key is not unique, otherwise the left
join, one output row per left row. -/
def mergeLeftM2O (left right : DF) (keys : List String) : Except PError DF :=
  if keys.all (fun k => decide (k ∈ colNames left)) then
    if keys.all (fun k => decide (k ∈ colNames right)) then
      if (right.rows.map (keyTuple keys)).Nodup then
        Except.ok { cols := left.cols ++ rightNonKeyCols right keys,
                    rows := left.rows.map (extendRow right keys) }
      else Except.error PError.cardinalityViolation
    else Except.error PError.keyError
  else Except.error PError.keyError

/- Post-merge sanity checks (script lines 213-225). -/

/-- assert df[k].notna().all() (script lines 214-215): KeyError when the
column is absent, AssertionError when some cell is missing. -/
def assertKeyNotNa (df : DF) (k : String) : Except PError Unit :=
  if k ∈ colNames df then
    if df.rows.all (fun r => decide (getCell r k ≠ Value.na)) then Except.ok ()
    else Except.error PError.assertionError
  else Except.error PError.keyError

/-- First-seen distinct values of a list (scan with a seen accumulator). -/
def distinctAux : List Value → List Value → List Value
  | [], _ => []
  | v :: vs, seen =>
    if v ∈ seen then distinctAux vs seen
    else v :: distinctAux vs (v :: seen)

/-- Distinct values of a list, first occurrences kept. -/
def distinctVals (l : List Value) : List Value := distinctAux l []

/-- Seen accumulator of distinctAux after consuming a list. -/
def seenAfter : List Value → List Value → List Value
  | [], seen => seen
  | v :: vs, seen => seenAfter vs (if v ∈ seen then seen else v :: seen)

/-- Series.nunique: number of distinct non-missing values. -/
def nuniqueNonNa (vs : List Value) : Nat :=
  (distinctVals (vs.filter (fun v => decide (v ≠ Value.na)))).length

/-- Key-column cells of a frame, one per row. -/
def keyValsOf (df : DF) : List Value :=
  df.rows.map (fun r => getCell r COLLISION_KEY)

/-- Distinct collision_index values of a frame: the group keys of
groupby(COLLISION_KEY, dropna=False). -/
def keysInOrder (df : DF) : List Value := distinctVals (keyValsOf df)

/-- groupby(COLLISION_KEY)[child].nunique() at one group key. -/
def childCount (ch : DF) (child : String) (k : Value) : Nat :=
  nuniqueNonNa
    ((ch.rows.filter (fun r => decide (getCell r COLLISION_KEY = k))).map
      (fun r => getCell r child))

/-- Declared count of the first collision row carrying key k, if any; this
is acc.set_index(COLLISION_KEY)[cnt] at label k (the script's collision
keys are unique whenever this runs after a successful validated merge). -/
def declaredOf (acc : DF) (cnt : String) (k : Value) : Option Value :=
  (acc.rows.find? (fun r => decide (getCell r COLLISION_KEY = k))).map
    (fun r => getCell r cnt)

/-- Mismatch test of Series.sub(other, fill_value=0) followed by != 0 at one
aligned key: a side absent from the union-aligned index, or holding NA, is
filled with 0 before subtraction, except that when both sides are missing
the result stays NA, and NA != 0 evaluates to True. -/
def parityMismatch (acc ch : DF) (cnt child : String) (k : Value) : Bool :=
  let decl := declaredOf acc cnt k
  let obs : Option Nat :=
    if ch.rows.any (fun r => decide (getCell r COLLISION_KEY = k)) then
      some (childCount ch child k)
    else none
  match decl, obs with
  | none, none => false
  | none, some c => decide (c ≠ 0)
  | some v, none => if v = Value.na then true else decide (toNumQ v ≠ some (mkRat 0 1))
  | some v, some c =>
    if v = Value.na then decide (c ≠ 0)
    else decide (toNumQ v ≠ some (mkRat c 1))

/-- Parity mismatch count logged by the script (lines 217-225): the number
of keys, in the union of collision keys and observed child-group keys,
where declared and observed counts disagree under the fill rules above. -/
def parityMismatchCount (acc ch : DF) (cnt child : String) : Nat :=
  ((distinctVals (keysInOrder acc ++ keysInOrder ch)).filter
    (parityMismatch acc ch cnt child)).length

/-- Modelled from the spec: the claim's own reading of the parity audit,
which counts only parent (collision) rows whose declared count disagrees
with the observed distinct-child count, treating an absent child group as
zero and a missing declared count as a non-match against a non-zero
observed count. The script itself has no such parent-only computation; this
definition exists to be compared with parityMismatchCount. -/
def parentParityMismatchCount (acc ch : DF) (cnt child : String) : Nat :=
  (acc.rows.filter (fun r =>
    let obs := childCount ch child (getCell r COLLISION_KEY)
    match getCell r cnt with
    | Value.na => decide (obs ≠ 0)
    | v => decide (toNumQ v ≠ some (mkRat obs 1)))).length

/-- Advisory parity logs of main (script lines 217-225). -/
def parityLogs (acc veh cas : DF) : List LogMsg :=
  (if "number_of_vehicles" ∈ colNames acc ∧ "vehicle_reference" ∈ colNames veh then
    [LogMsg.vehicleParityMismatches
      (parityMismatchCount acc veh "number_of_vehicles" "vehicle_reference")]
   else [])
  ++
  (if "number_of_casualties" ∈ colNames acc ∧ "casualty_reference" ∈ colNames cas then
    [LogMsg.casualtyParityMismatches
      (parityMismatchCount acc cas "number_of_casualties" "casualty_reference")]
   else [])

/-- Outcome of a run of main: the outputs written so far (name and frame),
the logs emitted so far, and on the error side the error that aborted the
run. -/
inductive Outcome where
  | ok (outputs : List (String × DF)) (logs : List LogMsg)
  | err (e : PError) (outputs : List (String × DF)) (logs : List LogMsg)
deriving DecidableEq, Repr

/-- Outputs written by a run, also on the error side. -/
def Outcome.outputs : Outcome → List (String × DF)
  | Outcome.ok o _ => o
  | Outcome.err _ o _ => o

/-- Logs emitted by a run, also on the error side. -/
def Outcome.logs : Outcome → List LogMsg
  | Outcome.ok _ l => l
  | Outcome.err _ _ l => l

/-- Error that aborted a run, if any. -/
def Outcome.errorOf : Outcome → Option PError
  | Outcome.ok _ _ => none
  | Outcome.err e _ _ => some e

/-- Collision-side cleaning of main in order: sentinels to NA, key columns
to strings, geo filter, speed normalization (script lines 150-182). -/
def collisionStage (acc : DF) : DF :=
  normalizeSpeed (geoFilterCollisions (coerceKeys (coerce_sentinels_to_na acc))).1

/-- Log list produced by the collision geo filter inside collisionStage. -/
def collisionStageLogs (acc : DF) : List LogMsg :=
  (geoFilterCollisions (coerceKeys (coerce_sentinels_to_na acc))).2

/-- Vehicle-side cleaning of main: sentinels to NA, key columns to strings,
dedup on VEH_KEYS (script lines 151-164). -/
def vehicleStage (veh : DF) : DF × Option Nat :=
  dedupStage VEH_KEYS (coerceKeys (coerce_sentinels_to_na veh))

/-- Casualty-side cleaning of main: sentinels to NA, key columns to strings,
dedup on CAS_KEYS (script lines 152-169). -/
def casualtyStage (cas : DF) : DF × Option Nat :=
  dedupStage CAS_KEYS (coerceKeys (coerce_sentinels_to_na cas))

/-- Dedup log message when the dedup block ran. -/
def dupLog (f : Nat → LogMsg) : Option Nat → List LogMsg
  | some n => [f n]
  | none => []

/-- Second casualty merge of main (script lines 205-207): when the vehicle
frame has a vehicle_type column, project it with the vehicle keys, dedup on
the vehicle keys, and left-join it onto the enriched casualty frame. -/
def vehicleTypeMerge (veh2 cas_en0 : DF) : Except PError DF :=
  if "vehicle_type" ∈ colNames veh2 then
    match selectColsE veh2 (VEH_KEYS ++ ["vehicle_type"]) with
    | Except.error e => Except.error e
    | Except.ok vp =>
      mergeLeftM2O cas_en0 { vp with rows := dropDuplicates VEH_KEYS vp.rows }
        VEH_KEYS
  else Except.ok cas_en0

/-- Pipeline body of main() of scripts/load_merge.py from line 150 (the
three frames are loaded) to line 227, with file writes modelled as the
outputs list; named mainPipeline because Lean reserves the name main. -/
def mainPipeline (acc veh cas : DF) : Outcome :=
  let vehD := vehicleStage veh
  let casD := casualtyStage cas
  let acc3 := collisionStage acc
  let ctx := buildContext acc3
  let logs0 :=
    dupLog LogMsg.vehiclesDupDropped vehD.2
    ++ dupLog LogMsg.casualtiesDupDropped casD.2
    ++ collisionStageLogs acc ++ [LogMsg.savedCollisions acc3.rows.length]
  let outs0 := [("collisions_clean.parquet", acc3)]
  let vehRes : Except PError DF :=
    if COLLISION_KEY ∈ colNames vehD.1 then mergeLeftM2O vehD.1 ctx [COLLISION_KEY]
    else Except.ok vehD.1
  match vehRes with
  | Except.error e => Outcome.err e outs0 logs0
  | Except.ok veh_en =>
    let logs1 := logs0 ++ [LogMsg.savedVehicles veh_en.rows.length]
    let outs1 := outs0 ++ [("vehicles_enriched.parquet", veh_en)]
    match mergeLeftM2O casD.1 ctx [COLLISION_KEY] with
    | Except.error e => Outcome.err e outs1 logs1
    | Except.ok cas_en0 =>
      match vehicleTypeMerge vehD.1 cas_en0 with
      | Except.error e => Outcome.err e outs1 logs1
      | Except.ok cas_en =>
        let logs2 := logs1 ++ [LogMsg.savedCasualties cas_en.rows.length]
        let outs2 := outs1 ++ [("casualties_enriched.parquet", cas_en)]
        match assertKeyNotNa veh_en COLLISION_KEY with
        | Except.error e => Outcome.err e outs2 logs2
        | Except.ok _ =>
          match assertKeyNotNa cas_en COLLISION_KEY with
          | Except.error e => Outcome.err e outs2 logs2
          | Except.ok _ =>
            Outcome.ok outs2
              (logs2 ++ parityLogs acc3 vehD.1 casD.1 ++ [LogMsg.loadMergeComplete])

/- Well-formedness of the embedding: pandas frames have a cell in every row
   for every declared column. -/

/-- Rows carry exactly the declared columns, in order, as every pandas
DataFrame does. -/
def RowsMatchCols (df : DF) : Prop :=
  ∀ r ∈ df.rows, r.map Prod.fst = colNames df

/-- Every row of the frame has a string cell under column k. -/
def KeyOk (df : DF) (k : String) : Prop :=
  ∀ r ∈ df.rows, ∃ s, lookupCol r k = some (Value.str s)

/-- Cell is missing or reads as a number (no raw text): the state of a
coordinate column pandas loads from a numeric CSV column. -/
def numOrNa (v : Value) : Bool :=
  match v with
  | Value.na => true
  | Value.int _ => true
  | Value.float _ => true
  | Value.str _ => false

/- Concrete example frames used by witnesses and counterexamples. -/

/-- Collision frame with one row: key "1", declared vehicle count 1. -/
def exAccA : DF :=
  { cols := [("collision_index", DType.str), ("number_of_vehicles", DType.int)],
    rows := [[("collision_index", Value.str "1"), ("number_of_vehicles", Value.int 1)]] }

/-- Vehicle frame with a matched row (key "1") and an orphan row (key "99"
absent from the collision table). -/
def exVehA : DF :=
  { cols := [("collision_index", DType.str), ("vehicle_reference", DType.str)],
    rows := [[("collision_index", Value.str "1"), ("vehicle_reference", Value.str "1")],
             [("collision_index", Value.str "99"), ("vehicle_reference", Value.str "1")]] }

/-- Casualty frame with one row matching collision "1". -/
def exCasA : DF :=
  { cols := [("collision_index", DType.str), ("casualty_reference", DType.str)],
    rows := [[("collision_index", Value.str "1"), ("casualty_reference", Value.str "1")]] }

/-- Collision frame with duplicated key "5" where the duplicate row lies
outside the UK bounding box (latitude 0, longitude 0) and is removed by the
geo filter before any join. -/
def exAccGeoDup : DF :=
  { cols := [("collision_index", DType.str), ("latitude", DType.float),
             ("longitude", DType.float)],
    rows := [[("collision_index", Value.str "5"), ("latitude", Value.float 50),
              ("longitude", Value.float 0)],
             [("collision_index", Value.str "5"), ("latitude", Value.float 0),
              ("longitude", Value.float 0)]] }

/-- Vehicle frame with a single row on key "5". -/
def exVehB : DF :=
  { cols := [("collision_index", DType.str), ("vehicle_reference", DType.str)],
    rows := [[("collision_index", Value.str "5"), ("vehicle_reference", Value.str "1")]] }

/-- Casualty frame with a single row on key "5". -/
def exCasB : DF :=
  { cols := [("collision_index", DType.str)],
    rows := [[("collision_index", Value.str "5")]] }

/-- Collision frame whose duplicate key "5" survives cleaning (no coordinate
columns, so the geo filter is skipped). -/
def exAccDup : DF :=
  { cols := [("collision_index", DType.str)],
    rows := [[("collision_index", Value.str "5")],
             [("collision_index", Value.str "5")]] }

/-- Collision frame with coordinate columns whose only row is inside the UK
bounding box, so the geo filter drops nothing. -/
def exAccGeoIn : DF :=
  { cols := [("collision_index", DType.str), ("latitude", DType.float),
             ("longitude", DType.float)],
    rows := [[("collision_index", Value.str "7"), ("latitude", Value.float 50),
              ("longitude", Value.float 0)]] }

/-- Collision-context style frame with a unique key "1". -/
def exCtx : DF :=
  { cols := [("collision_index", DType.str), ("number_of_vehicles", DType.int)],
    rows := [[("collision_index", Value.str "1"), ("number_of_vehicles", Value.int 1)]] }

/-- Vehicle frame without the collision_index column. -/
def exVehNoKey : DF :=
  { cols := [("vehicle_reference", DType.str)],
    rows := [[("vehicle_reference", Value.str "1")]] }

/-- Casualty frame without the collision_index column. -/
def exCasNoKey : DF :=
  { cols := [("casualty_reference", DType.str)],
    rows := [[("casualty_reference", Value.str "1")]] }

/-- Collision frame with a speed_limit column holding an allowed value, an
out-of-domain value and a missing value. -/
def exAccSpeed : DF :=
  { cols := [("collision_index", DType.str), ("speed_limit", DType.int)],
    rows := [[("collision_index", Value.str "1"), ("speed_limit", Value.int 30)],
             [("collision_index", Value.str "2"), ("speed_limit", Value.int 23)],
             [("collision_index", Value.str "3"), ("speed_limit", Value.na)]] }

/-- Frame with an integer column containing a sentinel and a text column
containing the same digits as text. -/
def exSent : DF :=
  { cols := [("a", DType.int), ("b", DType.str)],
    rows := [[("a", Value.int 99), ("b", Value.str "99")],
             [("a", Value.int 30), ("b", Value.str "x")]] }

/-- Vehicle frame with a duplicated composite key: rows one and two share
the key, row three differs. -/
def exVehDup : DF :=
  { cols := [("collision_index", DType.str), ("vehicle_reference", DType.str),
             ("vehicle_type", DType.int)],
    rows := [[("collision_index", Value.str "1"), ("vehicle_reference", Value.str "1"),
              ("vehicle_type", Value.int 9)],
             [("collision_index", Value.str "1"), ("vehicle_reference", Value.str "1"),
              ("vehicle_type", Value.int 19)],
             [("collision_index", Value.str "1"), ("vehicle_reference", Value.str "2"),
              ("vehicle_type", Value.int 9)]] }

/-- Vehicle frame with one row on key "1" and no orphan keys. -/
def exVehC : DF :=
  { cols := [("collision_index", DType.str), ("vehicle_reference", DType.str)],
    rows := [[("collision_index", Value.str "1"), ("vehicle_reference", Value.str "1")]] }

/- Helper lemmas on rows and lookups. -/

/-- find? over a name-preserving entry map commutes with the map. -/
theorem find?_map_nameh (h : String × Value → String × Value)
    (hn : ∀ cv, (h cv).1 = cv.1) (c : String) :
    ∀ r : Row, (r.map h).find? (fun cv => decide (cv.1 = c)) =
      (r.find? (fun cv => decide (cv.1 = c))).map h := by
  intro r
  induction r with
  | nil => rfl
  | cons cv r ih =>
    by_cases hc : cv.1 = c
    · rw [List.map_cons, List.find?_cons_of_pos, List.find?_cons_of_pos]
      · rfl
      · simpa using hc
      · simpa [hn cv] using hc
    · rw [List.map_cons, List.find?_cons_of_neg, List.find?_cons_of_neg, ih]
      · simpa using hc
      · simpa [hn cv] using hc

/-- getD of a mapped list below its length. -/
theorem getD_map_lt {α β : Type} (f : α → β) (l : List α) (i : Nat)
    (h : i < l.length) (d : α) (d2 : β) :
    (l.map f).getD i d2 = f (l.getD i d) := by
  simp [List.getD_eq_getElem?_getD, List.getElem?_map, List.getElem?_eq_getElem h]

/-- A found entry has the looked-up name. -/
theorem find?_name_eq {r : Row} {c : String} {cv : String × Value}
    (h : r.find? (fun cv => decide (cv.1 = c)) = some cv) : cv.1 = c := by
  have := List.find?_some h
  simpa using this

/-- Frames with the same header and rows are equal. -/
theorem DF_ext {a b : DF} (h1 : a.cols = b.cols) (h2 : a.rows = b.rows) : a = b := by
  cases a
  cases b
  cases h1
  cases h2
  rfl

/-- The sentinel cell transform is idempotent. -/
theorem sentinelCell_idem (dt : DType) (v : Value) :
    sentinelCell dt (sentinelCell dt v) = sentinelCell dt v := by
  cases dt with
  | int =>
    cases v with
    | int n =>
      by_cases h : n ∈ SENTINELS
      · simp [sentinelCell, h]
      · simp [sentinelCell, h]
    | na => rfl
    | str s => rfl
    | float q => rfl
  | float => rfl
  | str => rfl
  | obj => rfl

/-- The sentinel cell transform fixes the missing marker. -/
theorem sentinelCell_na (dt : DType) : sentinelCell dt Value.na = Value.na := by
  cases dt <;> rfl

/-- Cell-level description of coerce_sentinels_to_na on a row. -/
theorem getCell_sentinelRow (df : DF) (r : Row) (c : String) :
    getCell (r.map (fun cv => (cv.1, sentinelCell (dtypeOf df cv.1) cv.2))) c =
      sentinelCell (dtypeOf df c) (getCell r c) := by
  unfold getCell lookupCol
  rw [find?_map_nameh (fun cv => (cv.1, sentinelCell (dtypeOf df cv.1) cv.2))
      (fun cv => rfl) c r]
  cases hf : r.find? (fun cv => decide (cv.1 = c)) with
  | none => simp [sentinelCell_na]
  | some cv => simp [find?_name_eq hf]

/-- Row form of coerce_sentinels_to_na. -/
theorem coerce_sentinels_rows (df : DF) :
    (coerce_sentinels_to_na df).rows =
      df.rows.map (fun r => r.map (fun cv => (cv.1, sentinelCell (dtypeOf df cv.1) cv.2))) :=
  rfl

/-- coerce_sentinels_to_na is idempotent. -/
theorem coerce_sentinels_idem (df : DF) :
    coerce_sentinels_to_na (coerce_sentinels_to_na df) = coerce_sentinels_to_na df := by
  have hdt : ∀ c, dtypeOf (coerce_sentinels_to_na df) c = dtypeOf df c := fun c => rfl
  apply DF_ext
  · rfl
  · rw [coerce_sentinels_rows (coerce_sentinels_to_na df), coerce_sentinels_rows df,
      List.map_map]
    apply List.map_congr_left
    intro r _
    simp only [Function.comp_apply, List.map_map]
    apply List.map_congr_left
    intro cv _
    simp only [Function.comp_apply]
    rw [hdt, sentinelCell_idem]

/- Claim C6: sentinel normalizer. -/

/-- C6: coerce_sentinels_to_na replaces, in every integer-dtype column,
every sentinel value with the missing marker, leaves columns of other
dtypes untouched, changes no column header and drops no row, and is
idempotent. -/
theorem claim_C6 (df : DF) :
    coerce_sentinels_to_na (coerce_sentinels_to_na df) = coerce_sentinels_to_na df ∧
    (coerce_sentinels_to_na df).cols = df.cols ∧
    (coerce_sentinels_to_na df).rows.length = df.rows.length ∧
    (∀ i, i < df.rows.length → ∀ c : String,
      getCell ((coerce_sentinels_to_na df).rows.getD i []) c =
        sentinelCell (dtypeOf df c) (getCell (df.rows.getD i []) c) ∧
      (dtypeOf df c = DType.int →
        ∀ n : Int, getCell (df.rows.getD i []) c = Value.int n →
          getCell ((coerce_sentinels_to_na df).rows.getD i []) c =
            (if n ∈ SENTINELS then Value.na else Value.int n)) ∧
      (dtypeOf df c ≠ DType.int →
        getCell ((coerce_sentinels_to_na df).rows.getD i []) c =
          getCell (df.rows.getD i []) c)) := by
  have hcols : (coerce_sentinels_to_na df).cols = df.cols := rfl
  refine ⟨coerce_sentinels_idem df, hcols, by simp [coerce_sentinels_to_na], ?_⟩
  intro i hi c
  have hrow : (coerce_sentinels_to_na df).rows.getD i [] =
      (df.rows.getD i []).map (fun cv => (cv.1, sentinelCell (dtypeOf df cv.1) cv.2)) := by
    rw [coerce_sentinels_rows df]
    exact getD_map_lt _ df.rows i hi [] []
  have hcell : getCell ((coerce_sentinels_to_na df).rows.getD i []) c =
      sentinelCell (dtypeOf df c) (getCell (df.rows.getD i []) c) := by
    rw [hrow, getCell_sentinelRow]
  refine ⟨hcell, ?_, ?_⟩
  · intro hint n hn
    rw [hcell, hn, hint]
    simp [sentinelCell]
  · intro hnint
    rw [hcell]
    unfold sentinelCell
    rw [if_neg hnint]

/-- Witness for C6 at a concrete frame: the sentinel 99 in the integer
column becomes missing, the text "99" in the string column survives, and
the normalizer is idempotent there. -/
theorem claim_C6_witness :
    coerce_sentinels_to_na (coerce_sentinels_to_na exSent) = coerce_sentinels_to_na exSent ∧
    getCell ((coerce_sentinels_to_na exSent).rows.getD 0 []) "a" = Value.na ∧
    getCell ((coerce_sentinels_to_na exSent).rows.getD 0 []) "b" = Value.str "99" := by
  obtain ⟨h1, _, _, h4⟩ := claim_C6 exSent
  refine ⟨h1, ?_, ?_⟩
  · have ha := (h4 0 (by decide) "a").2.1 (by decide) 99 (by decide)
    rw [if_pos (by decide)] at ha
    exact ha
  · have hb := (h4 0 (by decide) "b").2.2 (by decide)
    rw [hb]
    decide

/- Claim C5: speed_limit normalization. -/

/-- The speed cell transform fixes the missing marker. -/
theorem speedCell_na : speedCell Value.na = Value.na := rfl

/-- speedCell on a cell with a numeric reading. -/
theorem speedCell_eq_of_some {v : Value} {q : Rat} (h : toNumQ v = some q) :
    speedCell v = if q ∈ ALLOWED_SPEEDS then v else Value.na := by
  unfold speedCell
  rw [h]

/-- speedCell on a cell with no numeric reading. -/
theorem speedCell_eq_of_none {v : Value} (h : toNumQ v = none) :
    speedCell v = Value.na := by
  unfold speedCell
  rw [h]

/-- Cell-level description of the speed_limit row map. -/
theorem getCell_speedRow (r : Row) (c : String) :
    getCell (r.map (fun cv => if cv.1 = "speed_limit" then (cv.1, speedCell cv.2) else cv)) c =
      (if c = "speed_limit" then speedCell (getCell r c) else getCell r c) := by
  have hn : ∀ cv : String × Value,
      ((if cv.1 = "speed_limit" then (cv.1, speedCell cv.2) else cv) : String × Value).1 = cv.1 := by
    intro cv
    split <;> rfl
  unfold getCell lookupCol
  rw [find?_map_nameh (fun cv => if cv.1 = "speed_limit" then (cv.1, speedCell cv.2) else cv)
      hn c r]
  cases hf : r.find? (fun cv => decide (cv.1 = c)) with
  | none =>
    by_cases hcs : c = "speed_limit"
    · rw [if_pos hcs]
      rfl
    · rw [if_neg hcs]
      rfl
  | some cv =>
    have hc := find?_name_eq hf
    by_cases hcs : c = "speed_limit"
    · rw [if_pos hcs]
      show (if cv.1 = "speed_limit" then ((cv.1, speedCell cv.2) : String × Value) else cv).2 =
        speedCell cv.2
      rw [hc, if_pos hcs]
    · rw [if_neg hcs]
      show (if cv.1 = "speed_limit" then ((cv.1, speedCell cv.2) : String × Value) else cv).2 =
        cv.2
      rw [hc, if_neg hcs]

/-- Row form of normalizeSpeed when the column is present. -/
theorem normalizeSpeed_rows (acc : DF) (h : "speed_limit" ∈ colNames acc) :
    (normalizeSpeed acc).rows =
      acc.rows.map (fun r =>
        r.map (fun cv => if cv.1 = "speed_limit" then (cv.1, speedCell cv.2) else cv)) := by
  unfold normalizeSpeed
  rw [if_pos h]

/-- Header form of normalizeSpeed. -/
theorem normalizeSpeed_cols (acc : DF) : (normalizeSpeed acc).cols = acc.cols := by
  unfold normalizeSpeed
  split <;> rfl

/-- C5: after the speed_limit normalization step every row's speed_limit is
either missing or numerically one of the allowed speeds; any other observed
value (including non-numeric) is rewritten to missing; no row is dropped
and columns other than speed_limit are unchanged. -/
theorem claim_C5 (acc : DF) (h : "speed_limit" ∈ colNames acc) :
    (normalizeSpeed acc).cols = acc.cols ∧
    (normalizeSpeed acc).rows.length = acc.rows.length ∧
    (∀ r ∈ (normalizeSpeed acc).rows,
      getCell r "speed_limit" = Value.na ∨
      ∃ q, toNumQ (getCell r "speed_limit") = some q ∧ q ∈ ALLOWED_SPEEDS) ∧
    (∀ i, i < acc.rows.length → ∀ c, c ≠ "speed_limit" →
      getCell ((normalizeSpeed acc).rows.getD i []) c = getCell (acc.rows.getD i []) c) ∧
    (∀ i, i < acc.rows.length →
      (∀ q, toNumQ (getCell (acc.rows.getD i []) "speed_limit") = some q →
        q ∉ ALLOWED_SPEEDS) →
      getCell ((normalizeSpeed acc).rows.getD i []) "speed_limit" = Value.na) := by
  have hrows := normalizeSpeed_rows acc h
  refine ⟨normalizeSpeed_cols acc, by rw [hrows]; simp, ?_, ?_, ?_⟩
  · intro r hr
    rw [hrows] at hr
    obtain ⟨r0, _, rfl⟩ := List.mem_map.mp hr
    rw [getCell_speedRow, if_pos rfl]
    cases htq : toNumQ (getCell r0 "speed_limit") with
    | none => left; exact speedCell_eq_of_none htq
    | some q =>
      by_cases hq : q ∈ ALLOWED_SPEEDS
      · right
        rw [speedCell_eq_of_some htq, if_pos hq]
        exact ⟨q, htq, hq⟩
      · left
        rw [speedCell_eq_of_some htq, if_neg hq]
  · intro i hi c hc
    rw [hrows, getD_map_lt _ acc.rows i hi [] [], getCell_speedRow, if_neg hc]
  · intro i hi hq
    rw [hrows, getD_map_lt _ acc.rows i hi [] [], getCell_speedRow, if_pos rfl]
    cases htq : toNumQ (getCell (acc.rows.getD i []) "speed_limit") with
    | none => exact speedCell_eq_of_none htq
    | some q => rw [speedCell_eq_of_some htq, if_neg (hq q htq)]

/-- Witness for C5 at a concrete frame: the allowed speed 30 is kept, the
out-of-domain speed 23 becomes missing, and another column is unchanged. -/
theorem claim_C5_witness :
    (normalizeSpeed exAccSpeed).rows.length = exAccSpeed.rows.length ∧
    getCell ((normalizeSpeed exAccSpeed).rows.getD 1 []) "speed_limit" = Value.na ∧
    getCell ((normalizeSpeed exAccSpeed).rows.getD 0 []) "collision_index" = Value.str "1" := by
  obtain ⟨_, h2, _, h4, h5⟩ := claim_C5 exAccSpeed (by decide)
  refine ⟨h2, ?_, ?_⟩
  · refine h5 1 (by decide) ?_
    intro q hq
    have h23 : toNumQ (getCell (exAccSpeed.rows.getD 1 []) "speed_limit") =
        some (mkRat 23 1) := by decide
    rw [h23, Option.some_inj] at hq
    rw [← hq]
    decide
  · rw [h4 0 (by decide) "collision_index" (by decide)]
    decide

/- Claim C4: geo filter. -/

/-- betweenV is false exactly when the numeric reading lies outside the
bounds. -/
theorem betweenV_false_iff {v : Value} {lo hi q : Rat} (h : toNumQ v = some q) :
    betweenV v lo hi = false ↔ (q < lo ∨ hi < q) := by
  unfold betweenV
  rw [h]
  show decide (lo ≤ q ∧ q ≤ hi) = false ↔ _
  rw [decide_eq_false_iff_not, not_and_or, not_le, not_le]

/-- betweenV is true exactly when the numeric reading lies inside the
bounds. -/
theorem betweenV_true_iff {v : Value} {lo hi q : Rat} (h : toNumQ v = some q) :
    betweenV v lo hi = true ↔ (lo ≤ q ∧ q ≤ hi) := by
  unfold betweenV
  rw [h]
  show decide (lo ≤ q ∧ q ≤ hi) = true ↔ _
  rw [decide_eq_true_eq]

/-- Numeric-or-missing cells are either the missing marker or read as a
number. -/
theorem numOrNa_cases {v : Value} (h : numOrNa v = true) :
    v = Value.na ∨ (v ≠ Value.na ∧ ∃ q, toNumQ v = some q) := by
  cases v with
  | na => exact Or.inl rfl
  | int n => exact Or.inr ⟨by simp, mkRat n 1, rfl⟩
  | float q => exact Or.inr ⟨by simp, q, rfl⟩
  | str s => simp [numOrNa] at h

/-- The keep-mask is false exactly on rows whose coordinates are both
present and at least one lies outside its bound (for numeric-or-missing
cells). -/
theorem within_uk_mask_false_iff {lat lon : Value}
    (ha : numOrNa lat = true) (hb : numOrNa lon = true) :
    within_uk_mask lat lon = false ↔
      (lat ≠ Value.na ∧ lon ≠ Value.na ∧
        ((∃ qa, toNumQ lat = some qa ∧ (qa < UK_LAT_LO ∨ UK_LAT_HI < qa)) ∨
         (∃ qb, toNumQ lon = some qb ∧ (qb < UK_LON_LO ∨ UK_LON_HI < qb)))) := by
  rcases numOrNa_cases ha with hlat | ⟨hlat, qa, hqa⟩
  · subst hlat
    constructor
    · intro hmask
      rw [show within_uk_mask Value.na lon = true from rfl] at hmask
      exact absurd hmask (by decide)
    · rintro ⟨h1, -, -⟩
      exact absurd rfl h1
  · rcases numOrNa_cases hb with hlon | ⟨hlon, qb, hqb⟩
    · subst hlon
      constructor
      · intro hmask
        have htrue : within_uk_mask lat Value.na = true := by
          simp [within_uk_mask, isNa]
        rw [htrue] at hmask
        exact absurd hmask (by decide)
      · rintro ⟨-, h2, -⟩
        exact absurd rfl h2
    · have hIna : isNa lat = false := by simp [isNa, hlat]
      have hJna : isNa lon = false := by simp [isNa, hlon]
      constructor
      · intro hmask
        refine ⟨hlat, hlon, ?_⟩
        cases hbl : betweenV lat UK_LAT_LO UK_LAT_HI with
        | false => exact Or.inl ⟨qa, hqa, (betweenV_false_iff hqa).mp hbl⟩
        | true =>
          cases hbo : betweenV lon UK_LON_LO UK_LON_HI with
          | false => exact Or.inr ⟨qb, hqb, (betweenV_false_iff hqb).mp hbo⟩
          | true =>
            exfalso
            unfold within_uk_mask at hmask
            rw [hIna, hJna, hbl, hbo] at hmask
            exact absurd hmask (by decide)
      · rintro ⟨-, -, hout⟩
        unfold within_uk_mask
        rw [hIna, hJna]
        rcases hout with ⟨qa2, hqa2, ho⟩ | ⟨qb2, hqb2, ho⟩
        · have hf : betweenV lat UK_LAT_LO UK_LAT_HI = false :=
            (betweenV_false_iff hqa2).mpr ho
          rw [hf]
          simp
        · have hf : betweenV lon UK_LON_LO UK_LON_HI = false :=
            (betweenV_false_iff hqb2).mpr ho
          rw [hf]
          simp

/-- Splitting a list's length by a filter and its complement. -/
theorem filter_length_split {α : Type} (p : α → Bool) (l : List α) :
    (l.filter p).length + (l.filter (fun a => !p a)).length = l.length := by
  induction l with
  | nil => rfl
  | cons a l ih =>
    by_cases h : p a <;> simp [List.filter_cons, h, ← ih] <;> omega

/-- Unfolding of the geo filter when both coordinate columns are present. -/
theorem geoFilter_eq_of_cols (acc : DF) (hlat : "latitude" ∈ colNames acc)
    (hlon : "longitude" ∈ colNames acc) :
    geoFilterCollisions acc =
      ({ acc with rows := (acc.rows.filter
          (fun r => within_uk_mask (getCell r "latitude") (getCell r "longitude"))) },
       if (acc.rows.filter
            (fun r => !within_uk_mask (getCell r "latitude") (getCell r "longitude"))).length ≠ 0
       then [LogMsg.collisionsGeoDropped
              ((acc.rows.filter
                (fun r => !within_uk_mask (getCell r "latitude") (getCell r "longitude"))).length)]
       else []) := by
  unfold geoFilterCollisions
  rw [if_pos ⟨hlat, hlon⟩]

/-- C4 (amended): the geo filter drops a row exactly when both coordinates
are non-missing and at least one lies outside its bound; rows with a
missing coordinate are always kept; the dropped count plus the kept count
is the input count; and the dropped count is logged exactly when it is
nonzero. -/
theorem claim_C4_amended (acc : DF)
    (hlat : "latitude" ∈ colNames acc) (hlon : "longitude" ∈ colNames acc)
    (hnum : ∀ r ∈ acc.rows,
      numOrNa (getCell r "latitude") = true ∧ numOrNa (getCell r "longitude") = true) :
    (geoFilterCollisions acc).1.cols = acc.cols ∧
    (∀ r ∈ acc.rows,
      (r ∈ (geoFilterCollisions acc).1.rows ↔
        ¬(getCell r "latitude" ≠ Value.na ∧ getCell r "longitude" ≠ Value.na ∧
          ((∃ qa, toNumQ (getCell r "latitude") = some qa ∧
              (qa < UK_LAT_LO ∨ UK_LAT_HI < qa)) ∨
           (∃ qb, toNumQ (getCell r "longitude") = some qb ∧
              (qb < UK_LON_LO ∨ UK_LON_HI < qb)))))) ∧
    (∀ r ∈ acc.rows,
      (getCell r "latitude" = Value.na ∨ getCell r "longitude" = Value.na) →
      r ∈ (geoFilterCollisions acc).1.rows) ∧
    ((geoFilterCollisions acc).1.rows.length +
      (acc.rows.filter
        (fun r => !within_uk_mask (getCell r "latitude") (getCell r "longitude"))).length
      = acc.rows.length) ∧
    ((geoFilterCollisions acc).2 =
      if (acc.rows.filter
           (fun r => !within_uk_mask (getCell r "latitude") (getCell r "longitude"))).length ≠ 0
      then [LogMsg.collisionsGeoDropped
             ((acc.rows.filter
               (fun r => !within_uk_mask (getCell r "latitude") (getCell r "longitude"))).length)]
      else []) := by
  have heq := geoFilter_eq_of_cols acc hlat hlon
  have hmem : ∀ r ∈ acc.rows,
      (r ∈ (geoFilterCollisions acc).1.rows ↔
        within_uk_mask (getCell r "latitude") (getCell r "longitude") = true) := by
    intro r hr
    rw [heq]
    constructor
    · intro hmemf
      exact (List.mem_filter.mp hmemf).2
    · intro hkeep
      exact List.mem_filter.mpr ⟨hr, hkeep⟩
  refine ⟨by rw [heq], ?_, ?_, ?_, by rw [heq]⟩
  · intro r hr
    have hmf := within_uk_mask_false_iff (hnum r hr).1 (hnum r hr).2
    rw [hmem r hr]
    constructor
    · intro hkeep hdrop
      rw [hmf.mpr hdrop] at hkeep
      exact absurd hkeep (by decide)
    · intro hnodrop
      cases hmask : within_uk_mask (getCell r "latitude") (getCell r "longitude") with
      | false => exact absurd (hmf.mp hmask) hnodrop
      | true => rfl
  · intro r hr hna
    have hmf := within_uk_mask_false_iff (hnum r hr).1 (hnum r hr).2
    rw [hmem r hr]
    cases hmask : within_uk_mask (getCell r "latitude") (getCell r "longitude") with
    | false =>
      obtain ⟨h1, h2, -⟩ := hmf.mp hmask
      rcases hna with hna | hna
      · exact absurd hna h1
      · exact absurd hna h2
    | true => rfl
  · rw [heq]
    exact filter_length_split _ acc.rows

/-- Witness for the amended C4 at a concrete frame: of two rows, the
out-of-box one is dropped, and the dropped count 1 is logged. -/
theorem claim_C4_amended_witness :
    (geoFilterCollisions exAccGeoDup).1.rows.length + 1 = exAccGeoDup.rows.length ∧
    (geoFilterCollisions exAccGeoDup).2 = [LogMsg.collisionsGeoDropped 1] := by
  obtain ⟨-, -, -, h4, h5⟩ :=
    claim_C4_amended exAccGeoDup (by decide) (by decide) (by decide)
  have hlen : (exAccGeoDup.rows.filter
      (fun r => !within_uk_mask (getCell r "latitude") (getCell r "longitude"))).length = 1 := by
    decide
  rw [hlen] at h4 h5
  refine ⟨h4, ?_⟩
  rw [h5]
  rfl

/-- Counterexample to C4 as stated: on a collision frame whose rows all lie
inside the bounding box the geo filter runs (both columns present), drops
zero rows, and reports nothing: the script logs the dropped count only when
it is nonzero. -/
theorem claim_C4_cex :
    ("latitude" ∈ colNames exAccGeoIn ∧ "longitude" ∈ colNames exAccGeoIn) ∧
    (geoFilterCollisions exAccGeoIn).1.rows.length = exAccGeoIn.rows.length ∧
    (geoFilterCollisions exAccGeoIn).2 = [] := by
  exact ⟨by decide, by decide, by decide⟩

/- Claim C7: deduplication. -/

/-- The dedup scan returns a sublist of its input. -/
theorem dedupAux_sublist (keys : List String) :
    ∀ (rows : List Row) (seen : List (List Value)),
      List.Sublist (dedupAux keys rows seen) rows := by
  intro rows
  induction rows with
  | nil =>
    intro seen
    exact List.Sublist.refl []
  | cons r rs ih =>
    intro seen
    simp only [dedupAux]
    by_cases h : keyTuple keys r ∈ seen
    · rw [if_pos h]
      exact List.Sublist.cons r (ih seen)
    · rw [if_neg h]
      exact List.Sublist.cons₂ r (ih (keyTuple keys r :: seen))

/-- A row kept by the dedup scan has a key outside the seen accumulator. -/
theorem dedupAux_notmem_seen (keys : List String) :
    ∀ (rows : List Row) (seen : List (List Value)) (r : Row),
      r ∈ dedupAux keys rows seen → keyTuple keys r ∉ seen := by
  intro rows
  induction rows with
  | nil =>
    intro seen r hr
    simp [dedupAux] at hr
  | cons r0 rs ih =>
    intro seen r hr
    simp only [dedupAux] at hr
    by_cases h : keyTuple keys r0 ∈ seen
    · rw [if_pos h] at hr
      exact ih seen r hr
    · rw [if_neg h] at hr
      rcases List.mem_cons.mp hr with rfl | hr2
      · exact h
      · intro hmem
        exact ih (keyTuple keys r0 :: seen) r hr2 (List.mem_cons_of_mem _ hmem)

/-- Key tuples of the dedup scan's output are pairwise distinct. -/
theorem dedupAux_keys_nodup (keys : List String) :
    ∀ (rows : List Row) (seen : List (List Value)),
      ((dedupAux keys rows seen).map (keyTuple keys)).Nodup := by
  intro rows
  induction rows with
  | nil =>
    intro seen
    simp [dedupAux]
  | cons r0 rs ih =>
    intro seen
    simp only [dedupAux]
    by_cases h : keyTuple keys r0 ∈ seen
    · rw [if_pos h]
      exact ih seen
    · rw [if_neg h]
      rw [List.map_cons, List.nodup_cons]
      refine ⟨?_, ih (keyTuple keys r0 :: seen)⟩
      intro hmem
      obtain ⟨r2, hr2, hkey⟩ := List.mem_map.mp hmem
      exact dedupAux_notmem_seen keys rs (keyTuple keys r0 :: seen) r2 hr2
        (hkey ▸ List.mem_cons_self _ _)

/-- The dedup scan is idempotent over the same seen accumulator. -/
theorem dedupAux_idem (keys : List String) :
    ∀ (rows : List Row) (seen : List (List Value)),
      dedupAux keys (dedupAux keys rows seen) seen = dedupAux keys rows seen := by
  intro rows
  induction rows with
  | nil =>
    intro seen
    rfl
  | cons r0 rs ih =>
    intro seen
    simp only [dedupAux]
    by_cases h : keyTuple keys r0 ∈ seen
    · rw [if_pos h]
      exact ih seen
    · rw [if_neg h]
      simp only [dedupAux]
      rw [if_neg h]
      rw [ih (keyTuple keys r0 :: seen)]

/-- A first occurrence of a key survives the dedup scan. -/
theorem dedupAux_first_mem (keys : List String) :
    ∀ (rows : List Row) (seen : List (List Value)) (i : Nat),
      i < rows.length →
      keyTuple keys (rows.getD i []) ∉ seen →
      (∀ j, j < i → keyTuple keys (rows.getD j []) ≠ keyTuple keys (rows.getD i [])) →
      rows.getD i [] ∈ dedupAux keys rows seen := by
  intro rows
  induction rows with
  | nil =>
    intro seen i hi
    simp at hi
  | cons r0 rs ih =>
    intro seen i hi hseen hfirst
    cases i with
    | zero =>
      rw [List.getD_cons_zero] at hseen ⊢
      simp only [dedupAux]
      rw [if_neg hseen]
      exact List.mem_cons_self _ _
    | succ i =>
      rw [List.getD_cons_succ] at hseen ⊢
      have hi2 : i < rs.length := by
        simpa using Nat.lt_of_succ_lt_succ hi
      simp only [dedupAux]
      by_cases h : keyTuple keys r0 ∈ seen
      · rw [if_pos h]
        refine ih seen i hi2 hseen ?_
        intro j hj
        have := hfirst (j + 1) (Nat.succ_lt_succ hj)
        rwa [List.getD_cons_succ, List.getD_cons_succ] at this
      · rw [if_neg h]
        refine List.mem_cons_of_mem _ (ih (keyTuple keys r0 :: seen) i hi2 ?_ ?_)
        · intro hmem
          rcases List.mem_cons.mp hmem with heq | hmem2
          · have := hfirst 0 (Nat.succ_pos i)
            rw [List.getD_cons_zero, List.getD_cons_succ] at this
            exact this heq.symm
          · exact hseen hmem2
        · intro j hj
          have := hfirst (j + 1) (Nat.succ_lt_succ hj)
          rwa [List.getD_cons_succ, List.getD_cons_succ] at this

/-- C7: when all key columns are present, deduplication keeps a sublist of
the rows whose key tuples are pairwise distinct, keeps every first
occurrence in original order intact, and reports the removed count; when a
key column is absent the frame is returned unchanged with no count; and it
is a fixed point: rerunning it changes nothing and reports zero removed. -/
theorem claim_C7 (keys : List String) (df : DF) :
    (keys.all (fun k => decide (k ∈ colNames df)) = true →
      ((dedupStage keys df).1.cols = df.cols ∧
       List.Sublist (dedupStage keys df).1.rows df.rows ∧
       ((dedupStage keys df).1.rows.map (keyTuple keys)).Nodup ∧
       (∀ i, i < df.rows.length →
         (∀ j, j < i →
           keyTuple keys (df.rows.getD j []) ≠ keyTuple keys (df.rows.getD i [])) →
         df.rows.getD i [] ∈ (dedupStage keys df).1.rows) ∧
       (dedupStage keys df).2 =
         some (df.rows.length - (dedupStage keys df).1.rows.length))) ∧
    (keys.all (fun k => decide (k ∈ colNames df)) = false →
      dedupStage keys df = (df, none)) ∧
    (dedupStage keys (dedupStage keys df).1).1 = (dedupStage keys df).1 ∧
    ((dedupStage keys df).2.isSome = true →
      (dedupStage keys (dedupStage keys df).1).2 = some 0) := by
  by_cases hg : keys.all (fun k => decide (k ∈ colNames df)) = true
  · have hstage : dedupStage keys df =
        ({ df with rows := dropDuplicates keys df.rows },
         some (df.rows.length - (dropDuplicates keys df.rows).length)) := by
      unfold dedupStage
      rw [if_pos hg]
    have hg2 : keys.all
        (fun k => decide (k ∈ colNames { df with rows := dropDuplicates keys df.rows })) =
        true := hg
    have hstage2 : dedupStage keys { df with rows := dropDuplicates keys df.rows } =
        ({ df with rows := dropDuplicates keys (dropDuplicates keys df.rows) },
         some ((dropDuplicates keys df.rows).length -
           (dropDuplicates keys (dropDuplicates keys df.rows)).length)) := by
      unfold dedupStage
      rw [if_pos hg2]
    have hidem : dropDuplicates keys (dropDuplicates keys df.rows) =
        dropDuplicates keys df.rows := dedupAux_idem keys df.rows []
    refine ⟨fun _ => ⟨?_, ?_, ?_, ?_, ?_⟩, fun hng => absurd hg (by rw [hng]; decide), ?_, ?_⟩
    · rw [hstage]
    · rw [hstage]
      exact dedupAux_sublist keys df.rows []
    · rw [hstage]
      exact dedupAux_keys_nodup keys df.rows []
    · intro i hi hfirst
      rw [hstage]
      exact dedupAux_first_mem keys df.rows [] i hi (by simp) hfirst
    · rw [hstage]
    · rw [hstage, hstage2, hidem]
    · intro hsome
      rw [hstage, hstage2, hidem]
      simp
  · have hng : keys.all (fun k => decide (k ∈ colNames df)) = false := by
      cases h2 : keys.all (fun k => decide (k ∈ colNames df))
      · rfl
      · exact absurd h2 hg
    have hstage : dedupStage keys df = (df, none) := by
      unfold dedupStage
      rw [if_neg (by rw [hng]; decide)]
    refine ⟨fun h => absurd h hg, fun _ => hstage, ?_, ?_⟩
    · rw [hstage, hstage]
    · intro hsome
      rw [hstage] at hsome
      simp at hsome

/-- Witness for C7 at a concrete frame: the duplicate of the first key-pair
is removed, the first occurrence survives with its field values, one
removal is reported, and rerunning removes nothing. -/
theorem claim_C7_witness :
    exVehDup.rows.getD 0 [] ∈ (dedupStage VEH_KEYS exVehDup).1.rows ∧
    exVehDup.rows.getD 2 [] ∈ (dedupStage VEH_KEYS exVehDup).1.rows ∧
    (dedupStage VEH_KEYS exVehDup).2 =
      some (exVehDup.rows.length - (dedupStage VEH_KEYS exVehDup).1.rows.length) ∧
    (dedupStage VEH_KEYS (dedupStage VEH_KEYS exVehDup).1).1 =
      (dedupStage VEH_KEYS exVehDup).1 := by
  obtain ⟨hpresent, -, hfix, -⟩ := claim_C7 VEH_KEYS exVehDup
  obtain ⟨-, -, -, hfirst, hcount⟩ := hpresent (by decide)
  refine ⟨?_, ?_, hcount, hfix⟩
  · refine hfirst 0 (by decide) ?_
    intro j hj
    omega
  · refine hfirst 2 (by decide) ?_
    intro j hj
    interval_cases j <;> decide

/- Claims C3 and C2: left-join semantics. -/

/-- The validated left merge succeeds exactly into the row-wise left join
when both sides have the keys and the right side's key is unique. -/
theorem mergeLeftM2O_ok (left right : DF) (keys : List String)
    (hkl : keys.all (fun k => decide (k ∈ colNames left)) = true)
    (hkr : keys.all (fun k => decide (k ∈ colNames right)) = true)
    (hu : (right.rows.map (keyTuple keys)).Nodup) :
    mergeLeftM2O left right keys =
      Except.ok { cols := left.cols ++ rightNonKeyCols right keys,
                  rows := left.rows.map (extendRow right keys) } := by
  unfold mergeLeftM2O
  rw [if_pos hkl, if_pos hkr, if_pos hu]

/-- A left row with no key match on the right is extended by missing
cells. -/
theorem extendRow_unmatched {right : DF} {keys : List String} {lr : Row}
    (h : ∀ rr ∈ right.rows, keyTuple keys rr ≠ keyTuple keys lr) :
    extendRow right keys lr =
      lr ++ (rightNonKeyCols right keys).map (fun cd => (cd.1, Value.na)) := by
  unfold extendRow
  have hnone : right.rows.find?
      (fun rr => decide (keyTuple keys rr = keyTuple keys lr)) = none := by
    rw [List.find?_eq_none]
    intro rr hrr
    exact fun hc => h rr hrr (of_decide_eq_true hc)
  rw [hnone]

/-- Lookup distributes over row concatenation, first hit wins. -/
theorem lookupCol_append (r1 r2 : Row) (c : String) :
    lookupCol (r1 ++ r2) c =
      (match lookupCol r1 c with
       | some v => some v
       | none => lookupCol r2 c) := by
  induction r1 with
  | nil => rfl
  | cons cv r1 ih =>
    unfold lookupCol at ih ⊢
    by_cases hc : cv.1 = c
    · rw [List.cons_append, List.find?_cons_of_pos _ (by simpa using hc),
        List.find?_cons_of_pos _ (by simpa using hc)]
      rfl
    · rw [List.cons_append, List.find?_cons_of_neg, List.find?_cons_of_neg]
      · exact ih
      · simpa using hc
      · simpa using hc

/-- A cell appended as missing reads as missing whenever the left part of
the row does not carry the column. -/
theorem getCell_append_na (lr : Row) (names : List (String × DType)) (c : String)
    (h : lookupCol lr c = none) :
    getCell (lr ++ names.map (fun cd => (cd.1, Value.na))) c = Value.na := by
  unfold getCell
  rw [lookupCol_append, h]
  show (lookupCol (names.map (fun cd => (cd.1, Value.na))) c).getD Value.na = Value.na
  cases hf : lookupCol (names.map (fun cd => (cd.1, Value.na))) c with
  | none => rfl
  | some v =>
    unfold lookupCol at hf
    cases hf2 : (names.map (fun cd => (cd.1, Value.na))).find?
        (fun cv => decide (cv.1 = c)) with
    | none =>
      rw [hf2] at hf
      exact absurd hf (by simp)
    | some cv =>
      rw [hf2] at hf
      obtain ⟨cd, -, hcd⟩ := List.mem_map.mp (List.mem_of_find?_eq_some hf2)
      have h2 : cv.2 = Value.na := by rw [← hcd]
      have h3 : cv.2 = v := Option.some_inj.mp (by simpa using hf)
      exact h3.symm.trans h2

/-- C3: with the join keys present on both sides and the right key unique,
the validated left join succeeds, preserves the left row count exactly
(no many-side row is dropped or duplicated), appends exactly the right
non-key columns, and extends every unmatched left row with missing
cells. -/
theorem claim_C3 (left right : DF) (keys : List String)
    (hkl : keys.all (fun k => decide (k ∈ colNames left)) = true)
    (hkr : keys.all (fun k => decide (k ∈ colNames right)) = true)
    (hu : (right.rows.map (keyTuple keys)).Nodup) :
    ∃ res, mergeLeftM2O left right keys = Except.ok res ∧
      res.rows.length = left.rows.length ∧
      res.cols = left.cols ++ rightNonKeyCols right keys ∧
      (∀ i, i < left.rows.length →
        res.rows.getD i [] = extendRow right keys (left.rows.getD i []) ∧
        ((∀ rr ∈ right.rows, keyTuple keys rr ≠ keyTuple keys (left.rows.getD i [])) →
          res.rows.getD i [] = left.rows.getD i [] ++
            (rightNonKeyCols right keys).map (fun cd => (cd.1, Value.na)))) := by
  refine ⟨_, mergeLeftM2O_ok left right keys hkl hkr hu, by simp, rfl, ?_⟩
  intro i hi
  have hrow : (left.rows.map (extendRow right keys)).getD i [] =
      extendRow right keys (left.rows.getD i []) :=
    getD_map_lt _ left.rows i hi [] []
  exact ⟨hrow, fun horphan => by rw [hrow, extendRow_unmatched horphan]⟩

/-- Witness for C3 at concrete frames: the join succeeds and keeps both
vehicle rows. -/
theorem claim_C3_witness :
    ∃ res, mergeLeftM2O exVehA exCtx [COLLISION_KEY] = Except.ok res ∧
      res.rows.length = exVehA.rows.length := by
  obtain ⟨res, h1, h2, -, -⟩ :=
    claim_C3 exVehA exCtx [COLLISION_KEY] (by decide) (by decide) (by decide)
  exact ⟨res, h1, h2⟩

/-- C2 (amended): a child row whose key matches no row of the context frame
is kept by the enrichment join (row counts are preserved), its appended
context columns are all missing, and every context column the row did not
already carry reads as missing; however the script logs no orphan warning
and no orphan count — its only log messages are the dedup counts, the geo
drop count, the save messages and the parity counts. -/
theorem claim_C2_amended (left right : DF) (keys : List String)
    (hkl : keys.all (fun k => decide (k ∈ colNames left)) = true)
    (hkr : keys.all (fun k => decide (k ∈ colNames right)) = true)
    (hu : (right.rows.map (keyTuple keys)).Nodup)
    (i : Nat) (hi : i < left.rows.length)
    (horphan : ∀ rr ∈ right.rows,
      keyTuple keys rr ≠ keyTuple keys (left.rows.getD i [])) :
    ∃ res, mergeLeftM2O left right keys = Except.ok res ∧
      res.rows.length = left.rows.length ∧
      res.rows.getD i [] = left.rows.getD i [] ++
        (rightNonKeyCols right keys).map (fun cd => (cd.1, Value.na)) ∧
      (∀ c, lookupCol (left.rows.getD i []) c = none →
        getCell (res.rows.getD i []) c = Value.na) := by
  refine ⟨_, mergeLeftM2O_ok left right keys hkl hkr hu, by simp, ?_, ?_⟩
  · rw [getD_map_lt _ left.rows i hi [] [], extendRow_unmatched horphan]
  · intro c hc
    rw [getD_map_lt _ left.rows i hi [] [], extendRow_unmatched horphan]
    exact getCell_append_na _ _ c hc

/-- Witness for the amended C2 at concrete frames: the orphan vehicle row
(key "99") survives the join and its context column is missing. -/
theorem claim_C2_amended_witness :
    ∃ res, mergeLeftM2O exVehA exCtx [COLLISION_KEY] = Except.ok res ∧
      res.rows.length = exVehA.rows.length ∧
      res.rows.getD 1 [] = exVehA.rows.getD 1 [] ++ [("number_of_vehicles", Value.na)] := by
  obtain ⟨res, h1, h2, h3, -⟩ :=
    claim_C2_amended exVehA exCtx [COLLISION_KEY] (by decide) (by decide) (by decide)
      1 (by decide) (by decide)
  refine ⟨res, h1, h2, ?_⟩
  rw [h3]
  rfl

/-- Counterexample to C2 as stated: on a run with exactly one orphan
vehicle row the pipeline keeps the row and fills its context column with
the missing marker, but the complete log trace contains no orphan warning
and no orphan count — the script never computes or logs one. -/
theorem claim_C2_cex :
    (mainPipeline exAccA exVehA exCasA).errorOf = none ∧
    (mainPipeline exAccA exVehA exCasA).logs =
      [LogMsg.vehiclesDupDropped 0, LogMsg.savedCollisions 1, LogMsg.savedVehicles 2,
       LogMsg.savedCasualties 1, LogMsg.vehicleParityMismatches 1,
       LogMsg.loadMergeComplete] ∧
    getCell (((mainPipeline exAccA exVehA exCasA).outputs.getD 1
        ("", { cols := [], rows := [] })).2.rows.getD 1 []) "collision_index" =
      Value.str "99" ∧
    getCell (((mainPipeline exAccA exVehA exCasA).outputs.getD 1
        ("", { cols := [], rows := [] })).2.rows.getD 1 []) "number_of_vehicles" =
      Value.na := by
  exact ⟨by decide, by decide, by decide, by decide⟩

/- Claim C1: collision-key uniqueness. -/

/-- Key coercion does not change the column names. -/
theorem colNames_coerceKeys (df : DF) : colNames (coerceKeys df) = colNames df := by
  unfold colNames coerceKeys
  rw [List.map_map]
  apply List.map_congr_left
  intro cd _
  by_cases h : cd.1 ∈ KEY_NAMES
  · simp [Function.comp, h]
  · simp [Function.comp, h]

/-- Sentinel normalization does not change the column names. -/
theorem colNames_sentinels (df : DF) :
    colNames (coerce_sentinels_to_na df) = colNames df := rfl

/-- Deduplication does not change the column names. -/
theorem colNames_dedupStage (keys : List String) (df : DF) :
    colNames (dedupStage keys df).1 = colNames df := by
  unfold dedupStage
  split <;> rfl

/-- The vehicle cleaning stage does not change the column names. -/
theorem colNames_vehicleStage (veh : DF) :
    colNames (vehicleStage veh).1 = colNames veh := by
  unfold vehicleStage
  rw [colNames_dedupStage, colNames_coerceKeys, colNames_sentinels]

/-- The casualty cleaning stage does not change the column names. -/
theorem colNames_casualtyStage (cas : DF) :
    colNames (casualtyStage cas).1 = colNames cas := by
  unfold casualtyStage
  rw [colNames_dedupStage, colNames_coerceKeys, colNames_sentinels]

/-- Projection has exactly the requested column names. -/
theorem colNames_selectCols (df : DF) (names : List String) :
    colNames (selectCols df names) = names := by
  unfold colNames selectCols
  rw [List.map_map]
  simp [Function.comp_def]

/-- The geo filter does not change the column names. -/
theorem colNames_geoFilter (acc : DF) :
    colNames (geoFilterCollisions acc).1 = colNames acc := by
  unfold geoFilterCollisions
  split <;> rfl

/-- Speed normalization does not change the column names. -/
theorem colNames_normalizeSpeed (acc : DF) :
    colNames (normalizeSpeed acc) = colNames acc := by
  unfold normalizeSpeed
  split <;> rfl

/-- The collision cleaning stage does not change the column names. -/
theorem colNames_collisionStage (acc : DF) :
    colNames (collisionStage acc) = colNames acc := by
  unfold collisionStage
  rw [colNames_normalizeSpeed, colNames_geoFilter, colNames_coerceKeys, colNames_sentinels]

/-- A projected row reads the source row's cell on every projected
column. -/
theorem getCell_selectRow (r : Row) (names : List String) (c : String) (h : c ∈ names) :
    getCell (names.map (fun c2 => (c2, getCell r c2))) c = getCell r c := by
  induction names with
  | nil => simp at h
  | cons n ns ih =>
    by_cases hnc : n = c
    · subst hnc
      unfold getCell lookupCol
      rw [List.map_cons, List.find?_cons_of_pos _ (by simp)]
      rfl
    · have h2 : c ∈ ns := by
        rcases List.mem_cons.mp h with rfl | h2
        · exact absurd rfl hnc
        · exact h2
      unfold getCell lookupCol
      rw [List.map_cons, List.find?_cons_of_neg _ (by simpa using hnc)]
      exact ih h2

/-- The context projection's join-key tuples are the cleaned collision
frame's key cells. -/
theorem ctx_keyTuples (acc3 : DF) (hka : COLLISION_KEY ∈ colNames acc3) :
    (buildContext acc3).rows.map (keyTuple [COLLISION_KEY]) =
      acc3.rows.map (fun r => [getCell r COLLISION_KEY]) := by
  unfold buildContext selectCols
  simp only [List.map_map]
  apply List.map_congr_left
  intro r _
  simp only [Function.comp_apply]
  unfold keyTuple
  simp only [List.map_cons, List.map_nil]
  rw [getCell_selectRow]
  exact List.mem_filter.mpr ⟨by decide, decide_eq_true hka⟩

/-- C1 (amended): when the collision_index that survives collision-side
cleaning (the geo filter can remove duplicate rows first) is still
duplicated, and the vehicle frame carries the key, the first attempted
join fails with the cardinality violation of validate="many_to_one" and the
run aborts with only the cleaned collision output written — no enriched
output is produced. -/
theorem claim_C1_amended (acc veh cas : DF)
    (hka : COLLISION_KEY ∈ colNames acc)
    (hkv : COLLISION_KEY ∈ colNames veh)
    (hdup : ¬ ((collisionStage acc).rows.map (fun r => getCell r COLLISION_KEY)).Nodup) :
    ∃ logs, mainPipeline acc veh cas =
      Outcome.err PError.cardinalityViolation
        [("collisions_clean.parquet", collisionStage acc)] logs := by
  have hka3 : COLLISION_KEY ∈ colNames (collisionStage acc) := by
    rw [colNames_collisionStage]
    exact hka
  have hcond : COLLISION_KEY ∈ colNames (vehicleStage veh).1 := by
    rw [colNames_vehicleStage]
    exact hkv
  have hbl : [COLLISION_KEY].all
      (fun k => decide (k ∈ colNames (vehicleStage veh).1)) = true := by
    simp [hcond]
  have hctx : COLLISION_KEY ∈ colNames (buildContext (collisionStage acc)) := by
    unfold buildContext
    rw [colNames_selectCols]
    exact List.mem_filter.mpr ⟨by decide, decide_eq_true hka3⟩
  have hbr : [COLLISION_KEY].all
      (fun k => decide (k ∈ colNames (buildContext (collisionStage acc)))) = true := by
    simp [hctx]
  have hnodup :
      ¬ ((buildContext (collisionStage acc)).rows.map (keyTuple [COLLISION_KEY])).Nodup := by
    rw [ctx_keyTuples (collisionStage acc) hka3]
    intro hnd
    apply hdup
    have hcomp : (collisionStage acc).rows.map (fun r => [getCell r COLLISION_KEY]) =
        ((collisionStage acc).rows.map (fun r => getCell r COLLISION_KEY)).map
          (fun v => [v]) := by
      rw [List.map_map]
      rfl
    rw [hcomp] at hnd
    exact hnd.of_map
  have hmerge : mergeLeftM2O (vehicleStage veh).1 (buildContext (collisionStage acc))
      [COLLISION_KEY] = Except.error PError.cardinalityViolation := by
    unfold mergeLeftM2O
    rw [if_pos hbl, if_pos hbr, if_neg hnodup]
  refine ⟨dupLog LogMsg.vehiclesDupDropped (vehicleStage veh).2 ++
    dupLog LogMsg.casualtiesDupDropped (casualtyStage cas).2 ++
    collisionStageLogs acc ++
    [LogMsg.savedCollisions (collisionStage acc).rows.length], ?_⟩
  simp only [mainPipeline]
  rw [if_pos hcond, hmerge]

/-- Witness for the amended C1 at concrete frames: a duplicate key that
survives cleaning aborts the run at the vehicle join with only the cleaned
collision output written. -/
theorem claim_C1_amended_witness :
    ∃ logs, mainPipeline exAccDup exVehB exCasB =
      Outcome.err PError.cardinalityViolation
        [("collisions_clean.parquet", collisionStage exAccDup)] logs :=
  claim_C1_amended exAccDup exVehB exCasB (by decide) (by decide) (by decide)

/-- Counterexample to C1 as stated: a collision frame with two rows sharing
collision_index "5" where the duplicate lies outside the UK bounding box.
The geo filter removes the duplicate before the joins, no uniqueness
violation is ever surfaced, the run completes, and all three outputs
including the enriched ones are produced. -/
theorem claim_C1_cex :
    ¬ (exAccGeoDup.rows.map (fun r => getCell r COLLISION_KEY)).Nodup ∧
    (mainPipeline exAccGeoDup exVehB exCasB).errorOf = none ∧
    (mainPipeline exAccGeoDup exVehB exCasB).outputs.map Prod.fst =
      ["collisions_clean.parquet", "vehicles_enriched.parquet",
       "casualties_enriched.parquet"] := by
  exact ⟨by decide, by decide, by decide⟩

/- Claim C10: asymmetric tolerance of a missing collision_index column. -/

/-- C10: when the vehicle frame lacks collision_index the pipeline
proceeds and writes the vehicle output unenriched (same columns, no
context appended); when the casualty frame lacks collision_index the
unconditional casualty-context merge raises and the run aborts with no
casualty output written. -/
theorem claim_C10 :
    (∀ acc veh cas : DF, COLLISION_KEY ∉ colNames veh →
      ("vehicles_enriched.parquet", (vehicleStage veh).1) ∈
        (mainPipeline acc veh cas).outputs ∧
      colNames (vehicleStage veh).1 = colNames veh) ∧
    (∀ acc veh cas : DF, COLLISION_KEY ∉ colNames cas →
      (∃ e, (mainPipeline acc veh cas).errorOf = some e) ∧
      "casualties_enriched.parquet" ∉
        (mainPipeline acc veh cas).outputs.map Prod.fst) := by
  constructor
  · intro acc veh cas hkv
    have hcond : COLLISION_KEY ∉ colNames (vehicleStage veh).1 := by
      rw [colNames_vehicleStage]
      exact hkv
    refine ⟨?_, colNames_vehicleStage veh⟩
    simp only [mainPipeline]
    rw [if_neg hcond]
    repeat' split
    all_goals simp_all [Outcome.outputs]
  · intro acc veh cas hkc
    have hcond2 : ¬ ([COLLISION_KEY].all
        (fun k => decide (k ∈ colNames (casualtyStage cas).1)) = true) := by
      rw [colNames_casualtyStage]
      simp [hkc]
    have hmc : mergeLeftM2O (casualtyStage cas).1 (buildContext (collisionStage acc))
        [COLLISION_KEY] = Except.error PError.keyError := by
      unfold mergeLeftM2O
      rw [if_neg hcond2]
    simp only [mainPipeline]
    split
    · refine ⟨⟨_, rfl⟩, ?_⟩
      simp [Outcome.outputs]
    · rw [hmc]
      refine ⟨⟨PError.keyError, rfl⟩, ?_⟩
      simp [Outcome.outputs]

/-- Witness for C10 at concrete frames: a vehicle frame without the key is
written unenriched, while a casualty frame without the key aborts the run
with no casualty output. -/
theorem claim_C10_witness :
    ("vehicles_enriched.parquet", (vehicleStage exVehNoKey).1) ∈
      (mainPipeline exAccA exVehNoKey exCasA).outputs ∧
    (∃ e, (mainPipeline exAccA exVehA exCasNoKey).errorOf = some e) ∧
    "casualties_enriched.parquet" ∉
      (mainPipeline exAccA exVehA exCasNoKey).outputs.map Prod.fst := by
  refine ⟨(claim_C10.1 exAccA exVehNoKey exCasA (by decide)).1, ?_, ?_⟩
  · exact (claim_C10.2 exAccA exVehA exCasNoKey (by decide)).1
  · exact (claim_C10.2 exAccA exVehA exCasNoKey (by decide)).2

/- Claim C9: key coercion and the post-join assertions. -/

/-- Every key-column cell looked up after coerceKeys is a string. -/
theorem lookupCol_coerceKeys (df : DF) (k : String) (hk : k ∈ KEY_NAMES)
    (r : Row) (hr : r ∈ (coerceKeys df).rows) :
    ∀ v, lookupCol r k = some v → ∃ s, v = Value.str s := by
  intro v hv
  obtain ⟨r0, -, rfl⟩ := List.mem_map.mp hr
  have hn : ∀ cv : String × Value,
      ((if cv.1 ∈ KEY_NAMES then (cv.1, Value.str (valueToStr cv.2)) else cv) :
        String × Value).1 = cv.1 := by
    intro cv
    split <;> rfl
  unfold lookupCol at hv
  rw [find?_map_nameh _ hn k r0] at hv
  cases hf : r0.find? (fun cv => decide (cv.1 = k)) with
  | none =>
    rw [hf] at hv
    exact absurd hv (by simp)
  | some cv =>
    rw [hf] at hv
    have hname := find?_name_eq hf
    have hkmem : cv.1 ∈ KEY_NAMES := by rw [hname]; exact hk
    refine ⟨valueToStr cv.2, ?_⟩
    have : v = ((if cv.1 ∈ KEY_NAMES then (cv.1, Value.str (valueToStr cv.2)) else cv) :
        String × Value).2 := (Option.some_inj.mp (by simpa using hv)).symm
    rw [this, if_pos hkmem]

/-- A row whose names include k has a findable entry for k. -/
theorem find?_isSome_of_name (r : Row) (k : String) (h : k ∈ r.map Prod.fst) :
    ∃ cv, r.find? (fun cv => decide (cv.1 = k)) = some cv := by
  induction r with
  | nil => simp at h
  | cons cv r ih =>
    by_cases hc : cv.1 = k
    · exact ⟨cv, List.find?_cons_of_pos _ (by simpa using hc)⟩
    · have h2 : k ∈ r.map Prod.fst := by
        rcases List.mem_cons.mp h with h1 | h1
        · exact absurd h1.symm hc
        · exact h1
      obtain ⟨cv2, hcv2⟩ := ih h2
      exact ⟨cv2, by rw [List.find?_cons_of_neg _ (by simpa using hc)]; exact hcv2⟩

/-- After the sentinel and key-coercion passes, the key columns the frame
declares hold string cells in every row. -/
theorem keyOk_coerceKeys (df : DF) (k : String) (hk : k ∈ KEY_NAMES)
    (hwf : RowsMatchCols df) (hcol : k ∈ colNames df) :
    KeyOk (coerceKeys (coerce_sentinels_to_na df)) k := by
  intro r hr
  obtain ⟨r1, hr1, rfl⟩ := List.mem_map.mp hr
  have hr1names : r1.map Prod.fst = colNames df := by
    obtain ⟨r0, hr0, rfl⟩ := List.mem_map.mp hr1
    have : (r0.map (fun cv => (cv.1, sentinelCell (dtypeOf df cv.1) cv.2))).map Prod.fst =
        r0.map Prod.fst := by
      rw [List.map_map]
      rfl
    rw [this]
    exact hwf r0 hr0
  have hmem : k ∈ r1.map Prod.fst := by
    rw [hr1names]
    exact hcol
  obtain ⟨cv, hcv⟩ := find?_isSome_of_name r1 k hmem
  have hsome : ∃ v, lookupCol (r1.map (fun cv =>
      if cv.1 ∈ KEY_NAMES then (cv.1, Value.str (valueToStr cv.2)) else cv)) k = some v := by
    have hn : ∀ cv : String × Value,
        ((if cv.1 ∈ KEY_NAMES then (cv.1, Value.str (valueToStr cv.2)) else cv) :
          String × Value).1 = cv.1 := by
      intro cv
      split <;> rfl
    unfold lookupCol
    rw [find?_map_nameh _ hn k r1, hcv]
    exact ⟨_, rfl⟩
  obtain ⟨v, hv⟩ := hsome
  obtain ⟨s, rfl⟩ := lookupCol_coerceKeys (coerce_sentinels_to_na df) k hk _
    (List.mem_map_of_mem _ hr1) v hv
  exact ⟨s, hv⟩

/-- Deduplication preserves every per-row key property. -/
theorem keyOk_dedupStage (keys : List String) (df : DF) (k : String)
    (h : KeyOk df k) : KeyOk (dedupStage keys df).1 k := by
  intro r hr
  unfold dedupStage at hr
  split at hr
  · exact h r ((dedupAux_sublist keys df.rows []).subset hr)
  · exact h r hr

/-- The cleaned vehicle frame has string keys whenever the raw frame is
well-formed and declares the key. -/
theorem keyOk_vehicleStage (veh : DF) (hwf : RowsMatchCols veh)
    (hcol : COLLISION_KEY ∈ colNames veh) :
    KeyOk (vehicleStage veh).1 COLLISION_KEY :=
  keyOk_dedupStage VEH_KEYS _ COLLISION_KEY
    (keyOk_coerceKeys veh COLLISION_KEY (by decide) hwf hcol)

/-- The cleaned casualty frame has string keys whenever the raw frame is
well-formed and declares the key. -/
theorem keyOk_casualtyStage (cas : DF) (hwf : RowsMatchCols cas)
    (hcol : COLLISION_KEY ∈ colNames cas) :
    KeyOk (casualtyStage cas).1 COLLISION_KEY :=
  keyOk_dedupStage CAS_KEYS _ COLLISION_KEY
    (keyOk_coerceKeys cas COLLISION_KEY (by decide) hwf hcol)

/-- Inversion of a successful validated merge. -/
theorem mergeLeftM2O_ok_inv {left right : DF} {keys : List String} {res : DF}
    (hok : mergeLeftM2O left right keys = Except.ok res) :
    res = { cols := left.cols ++ rightNonKeyCols right keys,
            rows := left.rows.map (extendRow right keys) } ∧
    keys.all (fun k => decide (k ∈ colNames left)) = true ∧
    keys.all (fun k => decide (k ∈ colNames right)) = true ∧
    (right.rows.map (keyTuple keys)).Nodup := by
  unfold mergeLeftM2O at hok
  split at hok
  · split at hok
    · split at hok
      · rename_i h1 h2 h3
        injection hok with h
        exact ⟨h.symm, h1, h2, h3⟩
      · exact absurd hok (by simp)
    · exact absurd hok (by simp)
  · exact absurd hok (by simp)

/-- A successful merge keeps string keys on every join key column. -/
theorem keyOk_merge {left right : DF} {keys : List String} {k : String} {res : DF}
    (hok : mergeLeftM2O left right keys = Except.ok res)
    (h : KeyOk left k) : KeyOk res k := by
  obtain ⟨rfl, -, -, -⟩ := mergeLeftM2O_ok_inv hok
  intro r hr
  obtain ⟨lr, hlr, rfl⟩ := List.mem_map.mp hr
  obtain ⟨s, hs⟩ := h lr hlr
  refine ⟨s, ?_⟩
  unfold extendRow
  cases right.rows.find? (fun rr => decide (keyTuple keys rr = keyTuple keys lr)) with
  | some rr => rw [lookupCol_append, hs]
  | none => rw [lookupCol_append, hs]

/-- Merge failures are key errors or cardinality violations, never
assertion failures. -/
theorem mergeLeftM2O_error_kind {left right : DF} {keys : List String} {e : PError}
    (h : mergeLeftM2O left right keys = Except.error e) :
    e = PError.keyError ∨ e = PError.cardinalityViolation := by
  unfold mergeLeftM2O at h
  split at h
  · split at h
    · split at h
      · exact absurd h (by simp)
      · injection h with h2
        exact Or.inr h2.symm
    · injection h with h2
      exact Or.inl h2.symm
  · injection h with h2
    exact Or.inl h2.symm

/-- Projection failures are key errors. -/
theorem selectColsE_error_kind {df : DF} {names : List String} {e : PError}
    (h : selectColsE df names = Except.error e) : e = PError.keyError := by
  unfold selectColsE at h
  split at h
  · exact absurd h (by simp)
  · injection h with h2
    exact h2.symm

/-- Failures of the vehicle-type merge are key errors or cardinality
violations. -/
theorem vehicleTypeMerge_error_kind {veh2 cas_en0 : DF} {e : PError}
    (h : vehicleTypeMerge veh2 cas_en0 = Except.error e) :
    e = PError.keyError ∨ e = PError.cardinalityViolation := by
  unfold vehicleTypeMerge at h
  split at h
  · split at h
    · rename_i e2 heq
      injection h with h2
      exact h2 ▸ Or.inl (selectColsE_error_kind heq)
    · exact mergeLeftM2O_error_kind h
  · exact absurd h (by simp)

/-- A successful vehicle-type merge keeps string keys on collision_index. -/
theorem keyOk_vehicleTypeMerge {veh2 cas_en0 cas_en : DF}
    (h : vehicleTypeMerge veh2 cas_en0 = Except.ok cas_en)
    (hko : KeyOk cas_en0 COLLISION_KEY) : KeyOk cas_en COLLISION_KEY := by
  unfold vehicleTypeMerge at h
  split at h
  · split at h
    · exact absurd h (by simp)
    · exact keyOk_merge h hko
  · injection h with h2
    exact h2 ▸ hko

/-- The non-missing assert can only succeed or raise a KeyError when the
frame either has string keys throughout or lacks the column. -/
theorem assertKeyNotNa_no_assert {df : DF} {k : String}
    (h : KeyOk df k ∨ k ∉ colNames df) :
    assertKeyNotNa df k ≠ Except.error PError.assertionError := by
  unfold assertKeyNotNa
  by_cases hc : k ∈ colNames df
  · rcases h with h | h
    · rw [if_pos hc]
      have hall : df.rows.all (fun r => decide (getCell r k ≠ Value.na)) = true := by
        rw [List.all_eq_true]
        intro r hr
        obtain ⟨s, hs⟩ := h r hr
        unfold getCell
        rw [hs]
        simp
      rw [if_pos hall]
      simp
    · exact absurd hc h
  · rw [if_neg hc]
    simp

/-- C9: after key coercion every looked-up key cell is non-missing text
(missing keys become the string "nan"), and consequently for every
well-formed input the post-join assertions can never fail: the pipeline
never ends in an assertion error. -/
theorem claim_C9 (acc veh cas : DF) (hv : RowsMatchCols veh) (hcw : RowsMatchCols cas) :
    (∀ df : DF, ∀ k ∈ KEY_NAMES, ∀ r ∈ (coerceKeys df).rows, ∀ v,
      lookupCol r k = some v → ∃ s, v = Value.str s) ∧
    (mainPipeline acc veh cas).errorOf ≠ some PError.assertionError := by
  refine ⟨fun df k hk r hr v hv2 => lookupCol_coerceKeys df k hk r hr v hv2, ?_⟩
  simp only [mainPipeline]
  split
  · rename_i e heq
    split at heq
    · rcases mergeLeftM2O_error_kind heq with rfl | rfl <;> simp [Outcome.errorOf]
    · exact absurd heq (by simp)
  · rename_i veh_en heq1
    split
    · rename_i e heq2
      rcases mergeLeftM2O_error_kind heq2 with rfl | rfl <;> simp [Outcome.errorOf]
    · rename_i cas_en0 heq2
      have hko0 : KeyOk cas_en0 COLLISION_KEY := by
        obtain ⟨-, hkl, -, -⟩ := mergeLeftM2O_ok_inv heq2
        have hkcas2 : COLLISION_KEY ∈ colNames (casualtyStage cas).1 :=
          of_decide_eq_true ((List.all_eq_true.mp hkl) COLLISION_KEY (by decide))
        have hkcas : COLLISION_KEY ∈ colNames cas := by
          rwa [colNames_casualtyStage] at hkcas2
        exact keyOk_merge heq2 (keyOk_casualtyStage cas hcw hkcas)
      split
      · rename_i e heq3
        rcases vehicleTypeMerge_error_kind heq3 with rfl | rfl <;> simp [Outcome.errorOf]
      · rename_i cas_en heq3
        have hko : KeyOk cas_en COLLISION_KEY := keyOk_vehicleTypeMerge heq3 hko0
        have hvehok : KeyOk veh_en COLLISION_KEY ∨
            COLLISION_KEY ∉ colNames veh_en := by
          split at heq1
          · rename_i hcond
            left
            have hkveh : COLLISION_KEY ∈ colNames veh := by
              rwa [colNames_vehicleStage] at hcond
            exact keyOk_merge heq1 (keyOk_vehicleStage veh hv hkveh)
          · rename_i hcond
            injection heq1 with h2
            right
            rw [← h2]
            exact hcond
        split
        · rename_i e heq4
          intro hcontra
          simp only [Outcome.errorOf, Option.some_inj] at hcontra
          subst hcontra
          exact assertKeyNotNa_no_assert hvehok heq4
        · split
          · rename_i e heq5
            intro hcontra
            simp only [Outcome.errorOf, Option.some_inj] at hcontra
            subst hcontra
            exact assertKeyNotNa_no_assert (Or.inl hko) heq5
          · simp [Outcome.errorOf]

/-- Witness for C9 at concrete well-formed frames: the run ends without an
assertion error. -/
theorem claim_C9_witness :
    (mainPipeline exAccA exVehA exCasA).errorOf ≠ some PError.assertionError :=
  (claim_C9 exAccA exVehA exCasA (by unfold RowsMatchCols; decide)
    (by unfold RowsMatchCols; decide)).2

/- Claim C8: parity audit. -/

/-- Membership in the distinct scan. -/
theorem mem_distinctAux : ∀ (l : List Value) (seen : List Value) (x : Value),
    x ∈ distinctAux l seen ↔ x ∈ l ∧ x ∉ seen := by
  intro l
  induction l with
  | nil =>
    intro seen x
    simp [distinctAux]
  | cons v vs ih =>
    intro seen x
    simp only [distinctAux]
    by_cases h : v ∈ seen
    · rw [if_pos h, ih]
      constructor
      · rintro ⟨h1, h2⟩
        exact ⟨List.mem_cons_of_mem _ h1, h2⟩
      · rintro ⟨h1, h2⟩
        rcases List.mem_cons.mp h1 with rfl | h3
        · exact absurd h h2
        · exact ⟨h3, h2⟩
    · rw [if_neg h]
      constructor
      · intro h1
        rcases List.mem_cons.mp h1 with rfl | h2
        · exact ⟨List.mem_cons_self _ _, h⟩
        · obtain ⟨h3, h4⟩ := (ih (v :: seen) x).mp h2
          exact ⟨List.mem_cons_of_mem _ h3,
            fun hm => h4 (List.mem_cons_of_mem _ hm)⟩
      · rintro ⟨h1, h2⟩
        by_cases hxv : x = v
        · subst hxv
          exact List.mem_cons_self _ _
        · rcases List.mem_cons.mp h1 with rfl | h3
          · exact absurd rfl hxv
          · refine List.mem_cons_of_mem _ ((ih (v :: seen) x).mpr ⟨h3, ?_⟩)
            intro hm
            rcases List.mem_cons.mp hm with rfl | hm2
            · exact hxv rfl
            · exact h2 hm2

/-- The distinct scan of a duplicate-free list outside the accumulator is
the list itself. -/
theorem distinctAux_eq_self : ∀ (l : List Value) (seen : List Value),
    l.Nodup → (∀ x ∈ l, x ∉ seen) → distinctAux l seen = l := by
  intro l
  induction l with
  | nil =>
    intro seen _ _
    rfl
  | cons v vs ih =>
    intro seen hnd hout
    simp only [distinctAux]
    rw [if_neg (hout v (List.mem_cons_self _ _))]
    rw [ih (v :: seen) (List.nodup_cons.mp hnd).2]
    intro x hx
    intro hm
    rcases List.mem_cons.mp hm with rfl | hm2
    · exact (List.nodup_cons.mp hnd).1 hx
    · exact hout x (List.mem_cons_of_mem _ hx) hm2

/-- The distinct scan's output is duplicate-free. -/
theorem distinctAux_nodup : ∀ (l : List Value) (seen : List Value),
    (distinctAux l seen).Nodup := by
  intro l
  induction l with
  | nil =>
    intro seen
    simp [distinctAux]
  | cons v vs ih =>
    intro seen
    simp only [distinctAux]
    by_cases h : v ∈ seen
    · rw [if_pos h]
      exact ih seen
    · rw [if_neg h]
      rw [List.nodup_cons]
      refine ⟨?_, ih (v :: seen)⟩
      intro hm
      exact ((mem_distinctAux vs (v :: seen) v).mp hm).2 (List.mem_cons_self _ _)

/-- Membership in the accumulator after a scan. -/
theorem mem_seenAfter : ∀ (l : List Value) (seen : List Value) (x : Value),
    x ∈ seenAfter l seen ↔ x ∈ l ∨ x ∈ seen := by
  intro l
  induction l with
  | nil =>
    intro seen x
    simp [seenAfter]
  | cons v vs ih =>
    intro seen x
    simp only [seenAfter]
    by_cases h : v ∈ seen
    · rw [if_pos h, ih]
      constructor
      · rintro (h1 | h1)
        · exact Or.inl (List.mem_cons_of_mem _ h1)
        · exact Or.inr h1
      · rintro (h1 | h1)
        · rcases List.mem_cons.mp h1 with rfl | h2
          · exact Or.inr h
          · exact Or.inl h2
        · exact Or.inr h1
    · rw [if_neg h, ih]
      constructor
      · rintro (h1 | h1)
        · exact Or.inl (List.mem_cons_of_mem _ h1)
        · rcases List.mem_cons.mp h1 with rfl | h2
          · exact Or.inl (List.mem_cons_self _ _)
          · exact Or.inr h2
      · rintro (h1 | h1)
        · rcases List.mem_cons.mp h1 with rfl | h2
          · exact Or.inr (List.mem_cons_self _ _)
          · exact Or.inl h2
        · exact Or.inr (List.mem_cons_of_mem _ h1)

/-- The distinct scan splits over concatenation. -/
theorem distinctAux_append : ∀ (a b : List Value) (seen : List Value),
    distinctAux (a ++ b) seen = distinctAux a seen ++ distinctAux b (seenAfter a seen) := by
  intro a
  induction a with
  | nil =>
    intro b seen
    rfl
  | cons v vs ih =>
    intro b seen
    simp only [List.cons_append, distinctAux, seenAfter]
    by_cases h : v ∈ seen
    · rw [if_pos h, if_pos h, if_pos h]
      exact ih b seen
    · rw [if_neg h, if_neg h, if_neg h]
      exact congrArg (List.cons v) (ih b (v :: seen))

/-- The distinct scan of a list already covered by the accumulator is
empty. -/
theorem distinctAux_nil_of_seen : ∀ (b : List Value) (seen : List Value),
    (∀ x ∈ b, x ∈ seen) → distinctAux b seen = [] := by
  intro b
  induction b with
  | nil =>
    intro seen _
    rfl
  | cons v vs ih =>
    intro seen hall
    simp only [distinctAux]
    rw [if_pos (hall v (List.mem_cons_self _ _))]
    exact ih seen (fun x hx => hall x (List.mem_cons_of_mem _ hx))

/-- With duplicate-free keys, the first row found for a row's key is the
row itself. -/
theorem find?_key_of_nodup : ∀ (rows : List Row) (f : Row → Value),
    (rows.map f).Nodup → ∀ r ∈ rows,
      rows.find? (fun r2 => decide (f r2 = f r)) = some r := by
  intro rows f
  induction rows with
  | nil =>
    intro _ r hr
    simp at hr
  | cons r0 rs ih =>
    intro hnd r hr
    have hnd2 := List.nodup_cons.mp (show (f r0 :: rs.map f).Nodup from hnd)
    rcases List.mem_cons.mp hr with rfl | hr2
    · exact List.find?_cons_of_pos _ (by simp)
    · have hne : ¬ (f r0 = f r) := by
        intro heq
        exact hnd2.1 (heq ▸ List.mem_map_of_mem f hr2)
      rw [List.find?_cons_of_neg _ (by simpa using hne)]
      exact ih hnd2.2 r hr2

/-- A key with no matching child row has observed distinct-child count
zero. -/
theorem childCount_eq_zero (ch : DF) (child : String) {k : Value}
    (h : ch.rows.any (fun r2 => decide (getCell r2 COLLISION_KEY = k)) = false) :
    childCount ch child k = 0 := by
  unfold childCount
  have hnil : ch.rows.filter (fun r2 => decide (getCell r2 COLLISION_KEY = k)) = [] := by
    rw [List.filter_eq_nil_iff]
    intro r2 hr2
    have := List.any_eq_false.mp h r2 hr2
    simpa using this
  rw [hnil]
  rfl

/-- C8 (amended): when every observed child key references a collision row,
the collision keys are duplicate-free, and no declared count is missing,
the number the script logs equals the number of collision rows whose
declared count disagrees with the observed distinct-child count (absent
child group counted as zero, missing declared count treated as a non-match
against a non-zero observed count); without the first condition the
script's number also counts orphan child-group keys, which are not parent
rows. -/
theorem claim_C8_amended (acc ch : DF) (cnt child : String)
    (hnd : (keyValsOf acc).Nodup)
    (hsub : ∀ r ∈ ch.rows, getCell r COLLISION_KEY ∈ keyValsOf acc)
    (hdecl : ∀ r ∈ acc.rows, getCell r cnt ≠ Value.na) :
    parityMismatchCount acc ch cnt child = parentParityMismatchCount acc ch cnt child := by
  have haK : keysInOrder acc = keyValsOf acc :=
    distinctAux_eq_self (keyValsOf acc) [] hnd (by simp)
  have hallKeys : distinctVals (keysInOrder acc ++ keysInOrder ch) = keyValsOf acc := by
    unfold distinctVals
    rw [distinctAux_append, haK]
    rw [distinctAux_eq_self (keyValsOf acc) [] hnd (by simp)]
    rw [distinctAux_nil_of_seen, List.append_nil]
    intro x hx
    rw [mem_seenAfter]
    left
    have hx2 : x ∈ keyValsOf ch := ((mem_distinctAux (keyValsOf ch) [] x).mp hx).1
    obtain ⟨r2, hr2, rfl⟩ := List.mem_map.mp hx2
    exact hsub r2 hr2
  unfold parityMismatchCount
  rw [hallKeys]
  unfold keyValsOf
  rw [List.filter_map, List.length_map]
  unfold parentParityMismatchCount
  apply congrArg List.length
  apply List.filter_congr
  intro r hr
  simp only [Function.comp_apply]
  unfold parityMismatch declaredOf
  rw [find?_key_of_nodup acc.rows _ hnd r hr]
  by_cases hany : ch.rows.any
      (fun r2 => decide (getCell r2 COLLISION_KEY = getCell r COLLISION_KEY)) = true
  · rw [if_pos hany]
    dsimp only [Option.map]
    cases hv : getCell r cnt with
    | na => exact absurd hv (hdecl r hr)
    | int n => rw [if_neg (by simp)]
    | str s => rw [if_neg (by simp)]
    | float q => rw [if_neg (by simp)]
  · have hany2 : ch.rows.any
        (fun r2 => decide (getCell r2 COLLISION_KEY = getCell r COLLISION_KEY)) = false := by
      cases h2 : ch.rows.any
          (fun r2 => decide (getCell r2 COLLISION_KEY = getCell r COLLISION_KEY))
      · rfl
      · exact absurd h2 hany
    rw [if_neg (by rw [hany2]; exact fun h => absurd h (by decide))]
    have hcc := childCount_eq_zero ch child hany2
    dsimp only [Option.map]
    cases hv : getCell r cnt with
    | na => exact absurd hv (hdecl r hr)
    | int n =>
      rw [if_neg (by simp), hcc]
      rfl
    | str s =>
      rw [if_neg (by simp), hcc]
      rfl
    | float q =>
      rw [if_neg (by simp), hcc]
      rfl

/-- Witness for the amended C8 at concrete frames with no orphan child
keys: both counts agree. -/
theorem claim_C8_amended_witness :
    parityMismatchCount exAccA exVehC "number_of_vehicles" "vehicle_reference" =
      parentParityMismatchCount exAccA exVehC "number_of_vehicles" "vehicle_reference" :=
  claim_C8_amended exAccA exVehC "number_of_vehicles" "vehicle_reference"
    (by decide) (by decide) (by decide)

/-- Counterexample to C8 as stated: with one orphan vehicle group (key
"99") the script logs a mismatch count of 1 although zero parent rows
disagree — the logged number ranges over the union of parent and child
keys, not over parent rows. -/
theorem claim_C8_cex :
    parityMismatchCount exAccA exVehA "number_of_vehicles" "vehicle_reference" = 1 ∧
    parentParityMismatchCount exAccA exVehA "number_of_vehicles" "vehicle_reference" = 0 ∧
    LogMsg.vehicleParityMismatches 1 ∈ (mainPipeline exAccA exVehA exCasA).logs := by
  exact ⟨by decide, by decide, by decide⟩
